import Mathlib

/-!
# Verification of the pdf-inspector document-reconstruction engine

Shallow embedding of the Rust sources (`src/extractor.rs`, `src/tounicode.rs`,
`src/tables.rs`, `src/markdown.rs`) into Lean 4, together with theorems settling
the specification claims about the content-stream interpreter, the
reading-order/column resolver, the table detector and the Markdown emitter.

Modelling conventions:
* Rust `f32` values are modelled exactly by `Q`, a normalized fraction type
  (numerator / positive denominator) whose operations compute inside the
  kernel.  `Q.toRat` is the denotation into Mathlib's `ℚ` used when proving
  order facts.  `f32::sqrt` is modelled by an integer square root of numerator
  and denominator, exact on the perfect squares arising in this development.
  Division by zero is modelled as zero (the sources never rely on `inf`/NaN).
* Rust `String`/`&str` values are modelled as `List Char` (`Str`); the byte
  length `str::len` is modelled by summing `Char.utf8Size`.  ASCII-only helper
  predicates (`is_uppercase`, `is_whitespace`, `to_lowercase`, …) are modelled
  with Lean's ASCII character primitives; all concrete inputs below are ASCII,
  where the Rust Unicode versions agree.
* `std::collections::HashMap` is modelled by association lists in insertion
  order.  Keyed access (`get`) does not depend on iteration order, but
  `iter().max_by_key(...)` does: Rust hash maps iterate in an unspecified,
  seed-dependent order (fresh random state per map instance).  Every
  `max_by_key`-over-HashMap site therefore takes an explicit iteration-order
  parameter (`HmOrd`), a function reordering the insertion-order entry list;
  `hmOrdId` (insertion order) is one valid order, and any reorder producing a
  permutation of its input is valid.
* `Vec`, `Option`, `Result` become `List`, `Option`, `Except`.
-/

/-- Exact model of Rust `f32` arithmetic values: a normalized fraction
`num / den` with `0 < den`.  All operations normalize via `Nat.gcd`, which the
kernel evaluates, so concrete runs of the embedded pipeline can be settled by
`decide`. -/
structure Q where
  num : Int
  den : Nat
  dpos : 0 < den

instance : DecidableEq Q := fun a b =>
  decidable_of_iff (a.num = b.num ∧ a.den = b.den) (by cases a; cases b; simp)

namespace Q

/-- Build a normalized fraction from `n / d`, `0 < d`. -/
def mkn (n : Int) (d : Nat) (h : 0 < d) : Q :=
  let g := n.natAbs.gcd d
  ⟨n / (g : Int), d / g,
    Nat.div_pos (Nat.le_of_dvd h (Nat.gcd_dvd_right _ _)) (Nat.gcd_pos_of_pos_right _ h)⟩

def ofInt (n : Int) : Q := ⟨n, 1, Nat.one_pos⟩

instance (n : Nat) : OfNat Q n := ⟨ofInt n⟩

/-- Decimal literals such as `(1.2 : Q)`. -/
instance : OfScientific Q :=
  ⟨fun m s e =>
    if s then mkn (Int.ofNat m) (10 ^ e) (pow_pos (by decide) e)
    else ofInt (Int.ofNat (m * 10 ^ e))⟩

def add (a b : Q) : Q :=
  mkn (a.num * b.den + b.num * a.den) (a.den * b.den) (Nat.mul_pos a.dpos b.dpos)

def neg (a : Q) : Q := ⟨-a.num, a.den, a.dpos⟩

def sub (a b : Q) : Q := add a (neg b)

def mul (a b : Q) : Q :=
  mkn (a.num * b.num) (a.den * b.den) (Nat.mul_pos a.dpos b.dpos)

/-- Division; division by zero yields zero (see module conventions). -/
def div (a b : Q) : Q :=
  if h : b.num = 0 then ⟨0, 1, Nat.one_pos⟩
  else
    mkn (a.num * b.den * Int.sign b.num) (a.den * b.num.natAbs)
      (Nat.mul_pos a.dpos (Int.natAbs_pos.mpr h))

def abs (a : Q) : Q := ⟨|a.num|, a.den, a.dpos⟩

instance : Add Q := ⟨add⟩
instance : Neg Q := ⟨neg⟩
instance : Sub Q := ⟨sub⟩
instance : Mul Q := ⟨mul⟩
instance : Div Q := ⟨div⟩

/-- Model of `a ≤ b` by cross multiplication (denominators are positive). -/
protected def Le (a b : Q) : Prop := a.num * b.den ≤ b.num * a.den

protected def Lt (a b : Q) : Prop := a.num * b.den < b.num * a.den

instance : LE Q := ⟨Q.Le⟩
instance : LT Q := ⟨Q.Lt⟩

instance : DecidableRel (· ≤ · : Q → Q → Prop) := fun a b =>
  inferInstanceAs (Decidable (a.num * b.den ≤ b.num * a.den))

instance : DecidableRel (· < · : Q → Q → Prop) := fun a b =>
  inferInstanceAs (Decidable (a.num * b.den < b.num * a.den))

/-- Rust `f32::max` (no NaNs in the modelled range). -/
def max (a b : Q) : Q := if a ≤ b then b else a

def min (a b : Q) : Q := if a ≤ b then a else b

/-- Rust `f32::clamp(lo, hi)`. -/
def clamp (a lo hi : Q) : Q := Q.min (Q.max a lo) hi

/-- Truncation toward zero, the semantics of Rust's `as i32`/`as i64` casts
on f32 values within range. -/
def toIntTrunc (a : Q) : Int := a.num.tdiv a.den

/-- Kernel-computable integer square root (downward), Newton iteration on a
structural fuel.  Agrees with `Nat.sqrt`. -/
def natSqrtGo : Nat → Nat → Nat → Nat
  | 0, _, x => x
  | fuel + 1, n, x =>
    let y := (x + n / x) / 2
    if y < x then natSqrtGo fuel n y else x

def natSqrt (n : Nat) : Nat := if n ≤ 1 then n else natSqrtGo n n n

/-- Model of `f32::sqrt` on nonnegative values; exact on perfect squares
(numerator and denominator), which covers every use in this development.
(`natSqrt d ≥ 1` already holds for `d ≥ 1`; the `max 1` only discharges the
positivity invariant.) -/
def sqrt (a : Q) : Q :=
  ⟨Int.ofNat (natSqrt a.num.toNat), Nat.max (natSqrt a.den) 1,
    lt_of_lt_of_le Nat.one_pos (Nat.le_max_right _ _)⟩

/-- Denotation into Mathlib's rationals, used for order/arithmetic lemmas. -/
def toRat (a : Q) : ℚ := (a.num : ℚ) / (a.den : ℚ)

end Q

/-! ## List, string and map infrastructure -/

/-- Stable insertion of an element into a sorted list: `x` goes before the
first element `y` with `¬ le y x`.  Used to model Rust's stable `sort_by`
(for a total preorder, every stable sort produces this unique result). -/
def insertSorted {α : Type} (le : α → α → Bool) (x : α) : List α → List α
  | [] => [x]
  | y :: ys => if le y x then y :: insertSorted le x ys else x :: y :: ys

/-- Stable sort modelling Rust `slice::sort_by` with comparator `le`
(`le a b` ↔ the comparator returns `Less` or `Equal` on `(a, b)`). -/
def sortByStable {α : Type} (le : α → α → Bool) : List α → List α
  | [] => []
  | x :: xs => insertSorted le x (sortByStable le xs)

/-- Rust strings are modelled as lists of characters. -/
abbrev Str := List Char

/-- Model of `str::len`: the UTF-8 byte length. -/
def strLen (s : Str) : Nat := (s.map Char.utf8Size).sum

/-- ASCII model of `char::is_whitespace` (agrees on ASCII input). -/
def isWs (c : Char) : Bool := c = ' ' || c = '\t' || c = '\n' || c = '\r'

/-- Model of `str::trim_start`. -/
def trimStart (s : Str) : Str := s.dropWhile isWs

/-- Model of `str::trim_end`. -/
def trimEnd (s : Str) : Str := (s.reverse.dropWhile isWs).reverse

/-- Model of `str::trim`. -/
def strTrim (s : Str) : Str := trimEnd (trimStart s)

/-- Model of `str::starts_with` on a literal pattern. -/
def startsWithStr (s pat : Str) : Bool := pat.isPrefixOf s

/-- Model of `str::ends_with` on a literal pattern. -/
def endsWithStr (s pat : Str) : Bool := pat.isSuffixOf s

/-- Model of `str::contains` with a substring pattern. -/
def containsSub (s pat : Str) : Bool :=
  match s with
  | [] => pat.isEmpty
  | _ :: rest => pat.isPrefixOf s || containsSub rest pat

/-- Worker for `splitWs`: accumulates the current chunk (reversed). -/
def splitWsGo : Str → Str → List Str
  | [], acc => if acc.isEmpty then [] else [acc.reverse]
  | c :: cs, acc =>
    if isWs c then
      if acc.isEmpty then splitWsGo cs [] else acc.reverse :: splitWsGo cs []
    else splitWsGo cs (c :: acc)

/-- Model of `str::split_whitespace` (non-empty chunks between whitespace runs). -/
def splitWs (s : Str) : List Str := splitWsGo s []

/-- ASCII model of `str::to_lowercase` (agrees on ASCII input). -/
def strLower (s : Str) : Str := s.map Char.toLower

/-- Split a character list into segments at a separator character. -/
def splitChar (sep : Char) : Str → List Str
  | [] => [[]]
  | c :: cs =>
    if c = sep then [] :: splitChar sep cs
    else
      match splitChar sep cs with
      | [] => [[c]]
      | seg :: rest => (c :: seg) :: rest

/-- Model of `str::lines`: split on `'\n'`, dropping one trailing `'\r'` per line and a
final empty segment, as Rust does. -/
def strLines (s : Str) : List Str :=
  if s.isEmpty then []
  else
    let segs := splitChar '\n' s
    let segs := if segs.getLast? = some [] then segs.dropLast else segs
    segs.map fun l => if l.getLast? = some '\r' then l.dropLast else l

/-- Association-list model of `HashMap::get` (keys are unique by construction
at every use site). -/
def alGet {α β : Type} [BEq α] (m : List (α × β)) (k : α) : Option β := m.lookup k

/-- Association-list model of `*map.entry(k).or_insert(0) += 1` over a list of
keys: the entry list in insertion order. -/
def countEntries {α : Type} [BEq α] (keys : List α) : List (α × Nat) :=
  keys.foldl
    (fun acc k =>
      if (acc.lookup k).isSome then
        acc.map fun p => if p.1 == k then (p.1, p.2 + 1) else p
      else acc ++ [(k, 1)])
    []

/-- Model of `iter().max_by_key(|(_, v)| *v)` over an entry list: the LAST entry with
maximal value, matching Rust's tie-breaking. -/
def maxByKeyLast {α : Type} : List (α × Nat) → Option (α × Nat)
  | [] => none
  | e :: es =>
    (maxByKeyLast es).elim (some e) fun b => if e.2 > b.2 then some e else some b

/-- Iteration orders for the `max_by_key`-over-HashMap sites: a reorder of the
insertion-order entry list of `(i32, usize)` font-size histograms and of the
`(usize, usize)` column-count histograms.  Valid orders produce permutations. -/
structure HmOrd where
  ordSizes : List (Int × Nat) → List (Int × Nat)
  ordCounts : List (Nat × Nat) → List (Nat × Nat)

/-- The insertion-order (identity) iteration order. -/
def hmOrdId : HmOrd := ⟨id, id⟩

/-- A reversed iteration order (also a valid HashMap iteration order). -/
def hmOrdRev : HmOrd := ⟨List.reverse, List.reverse⟩

/-! ## `src/tounicode.rs`: ToUnicode CMap model -/

/-- Model of `char::from_u32` succeeds exactly on Unicode scalar values. -/
def validChar (u : Nat) : Bool := decide (Nat.isValidChar u)

/-- A parsed ToUnicode CMap: direct character mappings (CID → Unicode string)
plus range mappings `(start_cid, end_cid, base_unicode)`, in stored order
(`ToUnicodeCMap` in `src/tounicode.rs`). -/
structure ToUnicodeCMap where
  char_map : List (Nat × Str)
  ranges : List (Nat × Nat × Nat)

/-- The range-scanning part of `ToUnicodeCMap::lookup`: the first range
containing `cid` is used, but a range whose `base + offset` is not a valid
scalar value (`char::from_u32` fails) falls through to later ranges.
`base + offset` is a `u32` addition, hence the `% 2^32`. -/
def rangesLookup (cid : Nat) : List (Nat × Nat × Nat) → Option Str
  | [] => none
  | (s, e, b) :: rest =>
    if s ≤ cid ∧ cid ≤ e then
      let u := (b + (cid - s)) % 2 ^ 32
      if validChar u then some [Char.ofNat u] else rangesLookup cid rest
    else rangesLookup cid rest

namespace ToUnicodeCMap

/-- Model of `ToUnicodeCMap::lookup`: direct mappings first, then ranges. -/
def lookup (cm : ToUnicodeCMap) (cid : Nat) : Option Str :=
  match cm.char_map.lookup cid with
  | some s => some s
  | none => rangesLookup cid cm.ranges

/-- Model of `ToUnicodeCMap::decode_cids`: 2-byte big-endian CIDs; a CID the CMap does
not resolve falls back to the direct `char::from_u32` interpretation; a
trailing odd byte is ignored. -/
def decode_cids (cm : ToUnicodeCMap) : List Nat → Str
  | b1 :: b2 :: rest =>
    (let cid := b1 * 256 + b2
     match cm.lookup cid with
     | some s => s
     | none => if validChar cid then [Char.ofNat cid] else []) ++ cm.decode_cids rest
  | _ => []

end ToUnicodeCMap

/-- Collection of ToUnicode CMaps (`FontCMaps` in `src/tounicode.rs`).
`by_name` is in the sources.  The sources also call `FontCMaps::get_by_obj`
and `FontCMaps::get_with_obj`, whose definitions (and backing fields) are not
under `src/`; those two lookups and their key maps are modelled from the spec
("ToUnicode CMap keyed by the font's `/ToUnicode` object number; CMap keyed by
(base-font-name, object-number)") as opaque keyed lookups. -/
structure FontCMaps where
  by_name : List (Str × ToUnicodeCMap)
  by_obj_num : List (Nat × ToUnicodeCMap)
  by_base_obj : List ((Str × Nat) × ToUnicodeCMap)

namespace FontCMaps

/-- Model of `FontCMaps::get`: exact name match first, then a contains-match after
stripping one leading `'F'`.  (The Rust fallback iterates a `HashMap`; it is
modelled in insertion order, no claim depends on its tie-breaking.) -/
def get (fc : FontCMaps) (font_name : Str) : Option ToUnicodeCMap :=
  match fc.by_name.lookup font_name with
  | some cm => some cm
  | none =>
    let stripped := if font_name.head? = some 'F' then font_name.tail else font_name
    (fc.by_name.find? fun p => containsSub p.1 stripped || containsSub stripped p.1).map (·.2)

/-- Modelled from the spec: lookup keyed by the font's `/ToUnicode` object
number (`FontCMaps::get_by_obj`, absent from `src/`). -/
def get_by_obj (fc : FontCMaps) (obj_num : Nat) : Option ToUnicodeCMap :=
  fc.by_obj_num.lookup obj_num

/-- Modelled from the spec: lookup keyed by (base-font-name, object-number)
(`FontCMaps::get_with_obj`, absent from `src/`). -/
def get_with_obj (fc : FontCMaps) (base_name : Str) (obj_num : Nat) : Option ToUnicodeCMap :=
  fc.by_base_obj.lookup (base_name, obj_num)

end FontCMaps

/-! ## `src/extractor.rs`: data model -/

/-- Model of `ItemType` in `src/extractor.rs`. -/
inductive ItemType where
  | text : ItemType
  | image : ItemType
  | link : Str → ItemType
deriving DecidableEq

/-- Model of `TextItem` in `src/extractor.rs`: one shown run with device-space
position, measured width, rendered size and style flags. -/
structure TextItem where
  text : Str
  x : Q
  y : Q
  width : Q
  height : Q
  font : Str
  font_size : Q
  page : Nat
  is_bold : Bool
  is_italic : Bool
  item_type : ItemType
deriving DecidableEq

/-- Model of `TextLine` in `src/extractor.rs`. -/
structure TextLine where
  items : List TextItem
  y : Q
  page : Nat
deriving DecidableEq

/-- The subset of `lopdf::Object` consumed by the interpreter. -/
inductive PdfObj where
  | integer : Int → PdfObj
  | real : Q → PdfObj
  | name : Str → PdfObj
  | string : List Nat → PdfObj
  | array : List PdfObj → PdfObj
  | null : PdfObj

/-- One content-stream operation (`lopdf::content::Operation`). -/
structure Op where
  operator : Str
  operands : List PdfObj

/-- Model of `get_number` in `src/extractor.rs`. -/
def get_number : PdfObj → Option Q
  | .integer i => some (Q.ofInt i)
  | .real r => some r
  | _ => none

/-- Model of `get_operand_bytes` in `src/extractor.rs`. -/
def get_operand_bytes : PdfObj → Option (List Nat)
  | .string bytes => some bytes
  | _ => none

/-- Model of `FontWidthInfo` in `src/extractor.rs`. -/
structure FontWidthInfo where
  widths : List (Nat × Nat)
  default_width : Nat
  space_width : Nat
  is_cid : Bool
  units_scale : Q
deriving DecidableEq

/-- Model of `compute_string_width_ts` in `src/extractor.rs`: sum glyph widths (2-byte
big-endian codes for CID fonts, 1-byte otherwise), then scale by
`units_scale * font_size`. -/
def stringWidthUnits (font_info : FontWidthInfo) : List Nat → Q
  | b1 :: b2 :: rest =>
    if font_info.is_cid then
      Q.ofInt ((font_info.widths.lookup (b1 * 256 + b2)).getD font_info.default_width) +
        stringWidthUnits font_info rest
    else
      Q.ofInt ((font_info.widths.lookup b1).getD font_info.default_width) +
        stringWidthUnits font_info (b2 :: rest)
  | [b] =>
    if font_info.is_cid then 0
    else Q.ofInt ((font_info.widths.lookup b).getD font_info.default_width)
  | [] => 0

def compute_string_width_ts (bytes : List Nat) (font_info : FontWidthInfo)
    (font_size : Q) : Q :=
  stringWidthUnits font_info bytes * font_info.units_scale * font_size

/-! ## `src/extractor.rs`: fonts, document model, operand decoding -/

/-- The projection of a `lopdf` font dictionary consumed by the interpreter:
the `/BaseFont` name, the `/ToUnicode` reference object number, and the
composite of `font_dict.get_font_encoding(doc)` (outer `none` models `Err`)
with `Document::decode_text(&encoding, bytes)` (inner `none` models `Err`) —
both implemented by the external `lopdf` collaborator. -/
structure FontDict where
  base_font : Option Str
  tounicode : Option Nat
  builtin_decode : Option (List Nat → Option Str)

/-- Per-page font encodings from `/Differences` arrays
(`PageFontEncodings` in `src/extractor.rs`). -/
abbrev PageFontEncodings := List (Str × List (Nat × Char))

/-- The `font_base_names` map built at the top of `extract_page_text_items`
and of `extract_form_xobject_text`. -/
def font_base_names_of (fonts : List (Str × FontDict)) : List (Str × Str) :=
  fonts.filterMap fun p => p.2.base_font.map fun b => (p.1, b)

/-- The `font_tounicode_refs` map built at the top of
`extract_page_text_items` and of `extract_form_xobject_text`. -/
def font_tounicode_refs_of (fonts : List (Str × FontDict)) : List (Str × Nat) :=
  fonts.filterMap fun p => p.2.tounicode.map fun n => (p.1, n)

/-- The final Latin-1 fallback of `extract_text_from_operand`:
`bytes.iter().map(|&b| b as char).collect()`. -/
def latin1Decode (bytes : List Nat) : Str := bytes.map Char.ofNat

/-- Big-endian 2-byte grouping (`chunks_exact(2)`, trailing odd byte dropped). -/
def bytesToU16s : List Nat → List Nat
  | b1 :: b2 :: rest => (b1 * 256 + b2) :: bytesToU16s rest
  | _ => []

/-- Model of `String::from_utf16_lossy`: surrogate pairs combine; unpaired surrogates
become U+FFFD. -/
def utf16Lossy : List Nat → Str
  | [] => []
  | [u] =>
    if (0xD800 ≤ u ∧ u ≤ 0xDBFF) ∨ (0xDC00 ≤ u ∧ u ≤ 0xDFFF) then [Char.ofNat 0xFFFD]
    else [Char.ofNat u]
  | u :: v :: rest =>
    if 0xD800 ≤ u ∧ u ≤ 0xDBFF then
      if 0xDC00 ≤ v ∧ v ≤ 0xDFFF then
        Char.ofNat (0x10000 + (u - 0xD800) * 0x400 + (v - 0xDC00)) :: utf16Lossy rest
      else Char.ofNat 0xFFFD :: utf16Lossy (v :: rest)
    else if 0xDC00 ≤ u ∧ u ≤ 0xDFFF then Char.ofNat 0xFFFD :: utf16Lossy (v :: rest)
    else Char.ofNat u :: utf16Lossy (v :: rest)

/-- Model of `extract_text_from_operand` in `src/extractor.rs`: the decode ladder for a
shown-string operand.  Strategies 1–5 win on a non-empty decode; the built-in
encoding (strategy 6) returns on success even when the decoded text is empty;
then UTF-16BE when a BOM is present; byte-wise Latin-1 is the total fallback.
Non-`String` operands yield `none`. -/
def extract_text_from_operand (obj : PdfObj) (fonts : List (Str × FontDict))
    (current_font : Str) (font_cmaps : FontCMaps) (font_base_names : List (Str × Str))
    (font_tounicode_refs : List (Str × Nat)) (font_encodings : PageFontEncodings) :
    Option Str :=
  match obj with
  | .string bytes =>
    -- 1: CMap keyed by the font's /ToUnicode object number
    let s1 : Option Str := do
      let objNum ← font_tounicode_refs.lookup current_font
      let cmap ← font_cmaps.get_by_obj objNum
      let d := cmap.decode_cids bytes
      if !d.isEmpty then pure d else none
    -- 2: CMap keyed by (base-font-name, object number)
    let s2 : Option Str := do
      let baseName ← font_base_names.lookup current_font
      let objNum ← font_tounicode_refs.lookup current_font
      let cmap ← font_cmaps.get_with_obj baseName objNum
      let d := cmap.decode_cids bytes
      if !d.isEmpty then pure d else none
    -- 3: CMap keyed by base-font-name only
    let s3 : Option Str := do
      let baseName ← font_base_names.lookup current_font
      let cmap ← font_cmaps.get baseName
      let d := cmap.decode_cids bytes
      if !d.isEmpty then pure d else none
    -- 4: CMap keyed by the page-local resource name
    let s4 : Option Str := do
      let cmap ← font_cmaps.get current_font
      let d := cmap.decode_cids bytes
      if !d.isEmpty then pure d else none
    -- 5: custom encoding map from /Differences
    let s5 : Option Str := do
      let encodingMap ← font_encodings.lookup current_font
      let d : Str := bytes.filterMap fun b => encodingMap.lookup b
      if !d.isEmpty then pure d else none
    -- 6: the object model's built-in encoding (returns on Ok, even if empty)
    let s6 : Option Str := do
      let fd ← fonts.lookup current_font
      let dec ← fd.builtin_decode
      dec bytes
    -- 7: UTF-16BE when a BOM is present
    let s7 : Option Str :=
      match bytes with
      | 0xFE :: 0xFF :: rest => some (utf16Lossy (bytesToU16s rest))
      | _ => none
    -- 8: Latin-1, total
    s1 <|> s2 <|> s3 <|> s4 <|> s5 <|> s6 <|> s7 <|> some (latin1Decode bytes)
  | _ => none

/-- Model of `is_bold_font` in `src/extractor.rs`. -/
def is_bold_font (font_name : Str) : Bool :=
  let lower := strLower font_name
  containsSub lower "bold".toList || containsSub lower "-bd".toList ||
    containsSub lower "_bd".toList || containsSub lower "black".toList ||
    containsSub lower "heavy".toList || containsSub lower "demibold".toList ||
    containsSub lower "semibold".toList || containsSub lower "demi-bold".toList ||
    containsSub lower "semi-bold".toList || containsSub lower "extrabold".toList ||
    containsSub lower "ultrabold".toList ||
    (containsSub lower "medium".toList && !containsSub lower "mediumitalic".toList)

/-- Model of `is_italic_font` in `src/extractor.rs`. -/
def is_italic_font (font_name : Str) : Bool :=
  let lower := strLower font_name
  containsSub lower "italic".toList || containsSub lower "oblique".toList ||
    containsSub lower "-it".toList || containsSub lower "_it".toList ||
    containsSub lower "slant".toList || containsSub lower "inclined".toList ||
    containsSub lower "kursiv".toList

/-- A 2D affine matrix `[a, b, c, d, e, f]` (row-vector convention). -/
structure Mat where
  a : Q
  b : Q
  c : Q
  d : Q
  e : Q
  f : Q
deriving DecidableEq

/-- Model of `multiply_matrices` in `src/extractor.rs` (`new = M1 × M2`). -/
def multiply_matrices (m1 m2 : Mat) : Mat :=
  ⟨m1.a * m2.a + m1.b * m2.c, m1.a * m2.b + m1.b * m2.d,
   m1.c * m2.a + m1.d * m2.c, m1.c * m2.b + m1.d * m2.d,
   m1.e * m2.a + m1.f * m2.c + m2.e, m1.e * m2.b + m1.f * m2.d + m2.f⟩

def matId : Mat := ⟨1, 0, 0, 1, 0, 0⟩

/-- Model of `effective_font_size` in `src/extractor.rs`:
`base_size × max(‖(a,b)‖, ‖(c,d)‖)`. -/
def effective_font_size (base_size : Q) (tm : Mat) : Q :=
  let scale_x := Q.sqrt (tm.a * tm.a + tm.b * tm.b)
  let scale_y := Q.sqrt (tm.c * tm.c + tm.d * tm.d)
  base_size * Q.max scale_x scale_y

/-- XObject categorization (`XObjectType` in `src/extractor.rs`); a form
carries the object id of its stream. -/
inductive XObjectType where
  | image : XObjectType
  | form : Nat → XObjectType

/-- The projection of a `/Annots` entry consumed by `extract_page_links`:
subtype name, parsed `/Rect` (when it is a 4-number array) and the URI of the
`/A` action when present (`extract_link_uri`). -/
structure Annot where
  subtype : Str
  rect : Option (Q × Q × Q × Q)
  uri : Option Str

/-- A page as seen by `extract_page_text_items`: the 1-indexed page number,
the resolved per-page tables (`get_page_fonts`, `build_font_encodings`,
`build_font_widths`, `get_page_xobjects`), the content stream
(`get_page_content` composed with `Content::decode`; `Except.error` models a
failure of either, carrying the lopdf error message), and the annotations. -/
structure Page where
  page_num : Nat
  fonts : List (Str × FontDict)
  font_encodings : PageFontEncodings
  font_widths : List (Str × FontWidthInfo)
  xobjects : List (Str × XObjectType)
  content : Except Str (List Op)
  annots : List Annot

/-- A Form XObject as consumed by `extract_form_xobject_text`: its decoded
content stream (`decompressed_content` + `Content::decode`) and the resolved
tables from the form's own `/Resources` (`get_form_fonts`,
`build_font_encodings`, `build_font_widths`). -/
structure FormX where
  content : Except Str (List Op)
  fonts : List (Str × FontDict)
  font_encodings : PageFontEncodings
  font_widths : List (Str × FontWidthInfo)

/-- The loaded document: pages in `get_pages` order and the Form XObject
streams reachable by object id. -/
structure Document where
  pages : List Page
  forms : List (Nat × FormX)

/-- Model of `PdfError` in `src/lib.rs` (the variants reachable from extraction). -/
inductive PdfError where
  | io : Str → PdfError
  | parse : Str → PdfError
  | encrypted : PdfError
  | invalidStructure : PdfError
deriving DecidableEq

deriving instance DecidableEq for Except

/-! ## `src/extractor.rs`: the content-stream interpreter -/

/-- Graphics/text state of the page interpreter loop in
`extract_page_text_items`. -/
structure IState where
  ctm : Mat
  ctm_stack : List Mat
  current_font : Str
  current_font_size : Q
  text_matrix : Mat
  line_matrix : Mat
  in_text_block : Bool
  items : List TextItem

/-- The per-page context threaded through the interpreter: the resolved
tables built before the loop plus the document for `Do` form lookups. -/
structure PageCtx where
  doc : Document
  page_num : Nat
  fonts : List (Str × FontDict)
  font_encodings : PageFontEncodings
  font_widths : List (Str × FontWidthInfo)
  font_base_names : List (Str × Str)
  font_tounicode_refs : List (Str × Nat)
  xobjects : List (Str × XObjectType)
  font_cmaps : FontCMaps

/-- Decode one shown-string operand in a context (shorthand used by the
interpreter arms; expands to the `extract_text_from_operand` call sites). -/
def decodeOperand (fonts : List (Str × FontDict)) (current_font : Str)
    (font_cmaps : FontCMaps) (font_base_names : List (Str × Str))
    (font_tounicode_refs : List (Str × Nat)) (font_encodings : PageFontEncodings)
    (obj : PdfObj) : Option Str :=
  extract_text_from_operand obj fonts current_font font_cmaps font_base_names
    font_tounicode_refs font_encodings

/-- The `TJ` element fold: accumulate `(combined_text, total_width_ts)` over
the array elements, inserting inferred spaces for adjustments more negative
than the space threshold. -/
def tjFold (fonts : List (Str × FontDict)) (current_font : Str)
    (font_cmaps : FontCMaps) (font_base_names : List (Str × Str))
    (font_tounicode_refs : List (Str × Nat)) (font_encodings : PageFontEncodings)
    (font_info : Option FontWidthInfo) (space_threshold : Q) (font_size : Q)
    (arr : List PdfObj) : Str × Q :=
  arr.foldl
    (fun acc element =>
      let combined := acc.1
      let total := acc.2
      match element with
      | .integer n =>
        let nval := Q.ofInt n
        let total := total + -nval / 1000 * font_size
        if nval < -space_threshold ∧ ¬combined.isEmpty ∧ combined.getLast? ≠ some ' ' then
          (combined ++ [' '], total)
        else (combined, total)
      | .real n =>
        let total := total + -n / 1000 * font_size
        if n < -space_threshold ∧ ¬combined.isEmpty ∧ combined.getLast? ≠ some ' ' then
          (combined ++ [' '], total)
        else (combined, total)
      | _ =>
        let total :=
          match font_info, get_operand_bytes element with
          | some fi, some raw => total + compute_string_width_ts raw fi font_size
          | _, _ => total
        match decodeOperand fonts current_font font_cmaps font_base_names
            font_tounicode_refs font_encodings element with
        | some text => (combined ++ text, total)
        | none => (combined, total))
    ([], 0)

/-- One step of the page interpreter: the operator dispatch of
`extract_page_text_items` (lines 866–1191 of `src/extractor.rs`).
Unmatched operators and unresolvable operands are no-ops. -/
def pageStep (ctx : PageCtx)
    (formInterp : Document → Nat → Nat → FontCMaps → Mat → List TextItem)
    (st : IState) (op : Op) : IState :=
  if op.operator = "q".toList then
    { st with ctm_stack := st.ctm_stack ++ [st.ctm] }
  else if op.operator = "Q".toList then
    match st.ctm_stack.getLast? with
    | some saved => { st with ctm := saved, ctm_stack := st.ctm_stack.dropLast }
    | none => st
  else if op.operator = "cm".toList then
    match op.operands with
    | o0 :: o1 :: o2 :: o3 :: o4 :: o5 :: _ =>
      let m : Mat :=
        ⟨(get_number o0).getD 1, (get_number o1).getD 0, (get_number o2).getD 0,
         (get_number o3).getD 1, (get_number o4).getD 0, (get_number o5).getD 0⟩
      { st with ctm := multiply_matrices m st.ctm }
    | _ => st
  else if op.operator = "BT".toList then
    { st with in_text_block := true, text_matrix := matId, line_matrix := matId }
  else if op.operator = "ET".toList then
    { st with in_text_block := false }
  else if op.operator = "Tf".toList then
    match op.operands with
    | o0 :: o1 :: _ =>
      let font := match o0 with
        | .name n => n
        | _ => st.current_font
      let size := match o1 with
        | .real r => r
        | .integer i => Q.ofInt i
        | _ => st.current_font_size
      { st with current_font := font, current_font_size := size }
    | _ => st
  else if op.operator = "Td".toList ∨ op.operator = "TD".toList then
    match op.operands with
    | o0 :: o1 :: _ =>
      let tx := (get_number o0).getD 0
      let ty := (get_number o1).getD 0
      let lm := { st.line_matrix with e := st.line_matrix.e + tx, f := st.line_matrix.f + ty }
      { st with line_matrix := lm, text_matrix := lm }
    | _ => st
  else if op.operator = "Tm".toList then
    match op.operands with
    | o0 :: o1 :: o2 :: o3 :: o4 :: o5 :: _ =>
      let tm : Mat :=
        ⟨(get_number o0).getD 1, (get_number o1).getD 0, (get_number o2).getD 0,
         (get_number o3).getD 1, (get_number o4).getD 0, (get_number o5).getD 0⟩
      { st with text_matrix := tm, line_matrix := tm }
    | _ => st
  else if op.operator = "T*".toList then
    let lm := { st.line_matrix with f := st.line_matrix.f - st.current_font_size * 1.2 }
    { st with line_matrix := lm, text_matrix := lm }
  else if op.operator = "Tj".toList then
    if st.in_text_block ∧ ¬op.operands.isEmpty then
      match decodeOperand ctx.fonts st.current_font ctx.font_cmaps ctx.font_base_names
          ctx.font_tounicode_refs ctx.font_encodings (op.operands.headD .null) with
      | some text =>
        if ¬(strTrim text).isEmpty then
          let rendered_size := effective_font_size st.current_font_size st.text_matrix
          let combined := multiply_matrices st.text_matrix st.ctm
          let x := combined.e
          let y := combined.f
          let (width, tm) :=
            match ctx.font_widths.lookup st.current_font with
            | some font_info =>
              match get_operand_bytes (op.operands.headD .null) with
              | some raw_bytes =>
                let w_ts := compute_string_width_ts raw_bytes font_info st.current_font_size
                let tm := { st.text_matrix with
                  e := st.text_matrix.e + w_ts * st.text_matrix.a,
                  f := st.text_matrix.f + w_ts * st.text_matrix.b }
                (Q.abs (w_ts * (tm.a * st.ctm.a + tm.b * st.ctm.c)), tm)
              | none => ((0 : Q), st.text_matrix)
            | none => ((0 : Q), st.text_matrix)
          let base_font := (ctx.font_base_names.lookup st.current_font).getD st.current_font
          { st with
            text_matrix := tm,
            items := st.items ++
              [⟨text, x, y, width, rendered_size, st.current_font, rendered_size,
                ctx.page_num, is_bold_font base_font, is_italic_font base_font, .text⟩] }
        else st
      | none => st
    else st
  else if op.operator = "TJ".toList then
    if st.in_text_block ∧ ¬op.operands.isEmpty then
      match op.operands.headD .null with
      | .array arr =>
        let font_info := ctx.font_widths.lookup st.current_font
        let space_threshold :=
          match font_info with
          | some fi =>
            let space_em := Q.ofInt fi.space_width * fi.units_scale
            Q.clamp (space_em * 1000 * 0.4) 80 200
          | none => 120
        let (combined_text, total_width_ts) :=
          tjFold ctx.fonts st.current_font ctx.font_cmaps ctx.font_base_names
            ctx.font_tounicode_refs ctx.font_encodings font_info space_threshold
            st.current_font_size arr
        if ¬(strTrim combined_text).isEmpty then
          let rendered_size := effective_font_size st.current_font_size st.text_matrix
          let combined := multiply_matrices st.text_matrix st.ctm
          let x := combined.e
          let y := combined.f
          let width :=
            if font_info.isSome then
              Q.abs (total_width_ts * (st.text_matrix.a * st.ctm.a + st.text_matrix.b * st.ctm.c))
            else 0
          let base_font := (ctx.font_base_names.lookup st.current_font).getD st.current_font
          let tm :=
            if font_info.isSome then
              { st.text_matrix with
                e := st.text_matrix.e + total_width_ts * st.text_matrix.a,
                f := st.text_matrix.f + total_width_ts * st.text_matrix.b }
            else st.text_matrix
          { st with
            text_matrix := tm,
            items := st.items ++
              [⟨combined_text, x, y, width, rendered_size, st.current_font, rendered_size,
                ctx.page_num, is_bold_font base_font, is_italic_font base_font, .text⟩] }
        else st
      | _ => st
    else st
  else if op.operator = "'".toList then
    let lm := { st.line_matrix with f := st.line_matrix.f - st.current_font_size * 1.2 }
    let st := { st with line_matrix := lm, text_matrix := lm }
    if ¬op.operands.isEmpty then
      match decodeOperand ctx.fonts st.current_font ctx.font_cmaps ctx.font_base_names
          ctx.font_tounicode_refs ctx.font_encodings (op.operands.headD .null) with
      | some text =>
        if ¬(strTrim text).isEmpty then
          let rendered_size := effective_font_size st.current_font_size st.text_matrix
          let combined := multiply_matrices st.text_matrix st.ctm
          let base_font := (ctx.font_base_names.lookup st.current_font).getD st.current_font
          { st with items := st.items ++
              [⟨text, combined.e, combined.f, 0, rendered_size, st.current_font,
                rendered_size, ctx.page_num, is_bold_font base_font,
                is_italic_font base_font, .text⟩] }
        else st
      | none => st
    else st
  else if op.operator = "Do".toList then
    if ¬op.operands.isEmpty then
      match op.operands.headD .null with
      | .name n =>
        match ctx.xobjects.lookup n with
        | some .image =>
          { st with items := st.items ++
              [⟨"[Image: ".toList ++ n ++ "]".toList, st.ctm.e, st.ctm.f,
                Q.abs st.ctm.a, Q.abs st.ctm.d, [], 0, ctx.page_num, false, false,
                .image⟩] }
        | some (.form form_id) =>
          { st with items := st.items ++
              formInterp ctx.doc form_id ctx.page_num ctx.font_cmaps st.ctm }
        | none => st
      | _ => st
    else st
  else st

/-- Text state of the Form-XObject interpreter loop in
`extract_form_xobject_text` (no CTM stack, no line matrix). -/
structure FState where
  current_font : Str
  current_font_size : Q
  text_matrix : Mat
  in_text_block : Bool
  items : List TextItem

/-- Context of the Form-XObject interpreter: the form's own resolved tables
and the parent CTM. -/
structure FormCtx where
  page_num : Nat
  fonts : List (Str × FontDict)
  font_encodings : PageFontEncodings
  font_widths : List (Str × FontWidthInfo)
  font_base_names : List (Str × Str)
  font_tounicode_refs : List (Str × Nat)
  font_cmaps : FontCMaps
  parent_ctm : Mat

/-- One step of the Form-XObject interpreter: the operator dispatch of
`extract_form_xobject_text` (lines 1331–1522 of `src/extractor.rs`).  Only
`BT`/`ET`/`Tf`/`Td`/`TD`/`Tm`/`Tj`/`TJ` are handled; every other operator —
including `Do`, so nested forms are never entered — is a no-op. -/
def formStep (ctx : FormCtx) (st : FState) (op : Op) : FState :=
  if op.operator = "BT".toList then
    { st with in_text_block := true, text_matrix := matId }
  else if op.operator = "ET".toList then
    { st with in_text_block := false }
  else if op.operator = "Tf".toList then
    match op.operands with
    | o0 :: o1 :: _ =>
      let font := match o0 with
        | .name n => n
        | _ => st.current_font
      { st with current_font := font, current_font_size := (get_number o1).getD 12 }
    | _ => st
  else if op.operator = "Td".toList ∨ op.operator = "TD".toList then
    match op.operands with
    | o0 :: o1 :: _ =>
      let tx := (get_number o0).getD 0
      let ty := (get_number o1).getD 0
      { st with text_matrix :=
          { st.text_matrix with e := st.text_matrix.e + tx, f := st.text_matrix.f + ty } }
    | _ => st
  else if op.operator = "Tm".toList then
    match op.operands with
    | o0 :: o1 :: o2 :: o3 :: o4 :: o5 :: _ =>
      { st with text_matrix :=
          ⟨(get_number o0).getD 1, (get_number o1).getD 0, (get_number o2).getD 0,
           (get_number o3).getD 1, (get_number o4).getD 0, (get_number o5).getD 0⟩ }
    | _ => st
  else if op.operator = "Tj".toList then
    if st.in_text_block ∧ ¬op.operands.isEmpty then
      match decodeOperand ctx.fonts st.current_font ctx.font_cmaps ctx.font_base_names
          ctx.font_tounicode_refs ctx.font_encodings (op.operands.headD .null) with
      | some text =>
        if ¬(strTrim text).isEmpty then
          let rendered_size := effective_font_size st.current_font_size st.text_matrix
          let combined := multiply_matrices st.text_matrix ctx.parent_ctm
          let x := combined.e
          let y := combined.f
          let (width, tm) :=
            match ctx.font_widths.lookup st.current_font with
            | some font_info =>
              match get_operand_bytes (op.operands.headD .null) with
              | some raw_bytes =>
                let w_ts := compute_string_width_ts raw_bytes font_info st.current_font_size
                let tm := { st.text_matrix with
                  e := st.text_matrix.e + w_ts * st.text_matrix.a,
                  f := st.text_matrix.f + w_ts * st.text_matrix.b }
                (Q.abs (w_ts * (tm.a * ctx.parent_ctm.a + tm.b * ctx.parent_ctm.c)), tm)
              | none => ((0 : Q), st.text_matrix)
            | none => ((0 : Q), st.text_matrix)
          let base_font := (ctx.font_base_names.lookup st.current_font).getD st.current_font
          { st with
            text_matrix := tm,
            items := st.items ++
              [⟨text, x, y, width, rendered_size, st.current_font, rendered_size,
                ctx.page_num, is_bold_font base_font, is_italic_font base_font, .text⟩] }
        else st
      | none => st
    else st
  else if op.operator = "TJ".toList then
    if st.in_text_block ∧ ¬op.operands.isEmpty then
      match op.operands.headD .null with
      | .array arr =>
        let font_info := ctx.font_widths.lookup st.current_font
        let space_threshold :=
          match font_info with
          | some fi =>
            let space_em := Q.ofInt fi.space_width * fi.units_scale
            Q.clamp (space_em * 1000 * 0.4) 80 200
          | none => 120
        let (combined_text, total_width_ts) :=
          tjFold ctx.fonts st.current_font ctx.font_cmaps ctx.font_base_names
            ctx.font_tounicode_refs ctx.font_encodings font_info space_threshold
            st.current_font_size arr
        if ¬(strTrim combined_text).isEmpty then
          let rendered_size := effective_font_size st.current_font_size st.text_matrix
          let combined_mat := multiply_matrices st.text_matrix ctx.parent_ctm
          let x := combined_mat.e
          let y := combined_mat.f
          let width :=
            if font_info.isSome then
              Q.abs (total_width_ts *
                (st.text_matrix.a * ctx.parent_ctm.a + st.text_matrix.b * ctx.parent_ctm.c))
            else 0
          let base_font := (ctx.font_base_names.lookup st.current_font).getD st.current_font
          let tm :=
            if font_info.isSome then
              { st.text_matrix with
                e := st.text_matrix.e + total_width_ts * st.text_matrix.a,
                f := st.text_matrix.f + total_width_ts * st.text_matrix.b }
            else st.text_matrix
          { st with
            text_matrix := tm,
            items := st.items ++
              [⟨combined_text, x, y, width, rendered_size, st.current_font, rendered_size,
                ctx.page_num, is_bold_font base_font, is_italic_font base_font, .text⟩] }
        else st
      | _ => st
    else st
  else st

/-- Model of `extract_form_xobject_text` in `src/extractor.rs`: look up the form
stream, decode its content, resolve the form's own font tables, and run the
form interpreter with the parent CTM.  Any lookup/decode failure yields the
empty item list. -/
def extract_form_xobject_text (doc : Document) (form_id : Nat) (page_num : Nat)
    (font_cmaps : FontCMaps) (parent_ctm : Mat) : List TextItem :=
  match doc.forms.lookup form_id with
  | none => []
  | some form =>
    match form.content with
    | .error _ => []
    | .ok content =>
      let ctx : FormCtx :=
        { page_num := page_num, fonts := form.fonts,
          font_encodings := form.font_encodings, font_widths := form.font_widths,
          font_base_names := font_base_names_of form.fonts,
          font_tounicode_refs := font_tounicode_refs_of form.fonts,
          font_cmaps := font_cmaps, parent_ctm := parent_ctm }
      (content.foldl (formStep ctx)
        ⟨[], 12, matId, false, []⟩).items

/-- The interpreter loop of `extract_page_text_items` over the decoded
operations: total, never fails. -/
def runPageOps (ctx : PageCtx) (content : List Op) : List TextItem :=
  (content.foldl (pageStep ctx extract_form_xobject_text)
    ⟨matId, [], [], 12, matId, matId, false, []⟩).items

/-- The per-page context assembled at the top of `extract_page_text_items`. -/
def pageCtxOf (doc : Document) (page : Page) (font_cmaps : FontCMaps) : PageCtx :=
  { doc := doc, page_num := page.page_num, fonts := page.fonts,
    font_encodings := page.font_encodings, font_widths := page.font_widths,
    font_base_names := font_base_names_of page.fonts,
    font_tounicode_refs := font_tounicode_refs_of page.fonts,
    xobjects := page.xobjects, font_cmaps := font_cmaps }

/-- Model of `extract_page_text_items` in `src/extractor.rs`: build the per-page
tables, fetch and decode the content stream (both failures are mapped to
`PdfError::Parse` and propagated), then interpret. -/
def extract_page_text_items (doc : Document) (page : Page) (font_cmaps : FontCMaps) :
    Except PdfError (List TextItem) :=
  match page.content with
  | .error e => .error (.parse e)
  | .ok content => .ok (runPageOps (pageCtxOf doc page font_cmaps) content)

/-- Model of `extract_page_links` in `src/extractor.rs`: `/Annots` of subtype `/Link`
with a parsed rectangle and a URI action become Link items. -/
def extract_page_links (page : Page) : List TextItem :=
  page.annots.foldl
    (fun links annot =>
      if annot.subtype ≠ "Link".toList then links
      else
        match annot.rect, annot.uri with
        | some (x1, y1, x2, y2), some url =>
          links ++ [⟨url, x1, y1, x2 - x1, y2 - y1, [], 0, page.page_num,
            false, false, .link url⟩]
        | _, _ => links)
    []

/-- The page fold of `extract_positioned_text_from_doc`: text items then link
items per page, propagating the first per-page error (the `?` operator). -/
def extractPagesGo (doc : Document) (font_cmaps : FontCMaps) :
    List Page → Except PdfError (List TextItem)
  | [] => .ok []
  | p :: ps => do
    let items ← extract_page_text_items doc p font_cmaps
    let rest ← extractPagesGo doc font_cmaps ps
    .ok (items ++ extract_page_links p ++ rest)

/-- Model of `extract_positioned_text_from_doc` in `src/extractor.rs`. -/
def extract_positioned_text_from_doc (doc : Document) (font_cmaps : FontCMaps) :
    Except PdfError (List TextItem) :=
  extractPagesGo doc font_cmaps doc.pages

/-! ## `src/extractor.rs`: line text assembly -/

/-- Model of `should_join_items` in `src/extractor.rs`: position/case-based decision to
join two adjacent items without a space. -/
def should_join_items (prev_item curr_item : TextItem) : Bool :=
  if prev_item.text.getLast? = some ' ' ∨ curr_item.text.head? = some ' ' then false
  else
    let prev_last := (trimEnd prev_item.text).getLast?
    let curr_first := (trimStart curr_item.text).head?
    let punct_join : Bool :=
      match curr_first with
      | some c =>
        c == '.' || c == ',' || c == ';' || c == '!' || c == '?' || c == ')' ||
          c == ']' || c == '\x7d' || c == '\''
      | none => false
    let colon_space : Bool :=
      match prev_last, curr_first with
      | some p, some c => p == ':' && c.isAlphanum
      | _, _ => false
    if punct_join then true
    else if colon_space then false
    else if (0 : Q) < prev_item.width then
      let prev_end_x := prev_item.x + prev_item.width
      let gap := curr_item.x - prev_end_x
      gap < prev_item.font_size * 0.15
    else
      let char_width := prev_item.font_size * 0.45
      let estimated_prev_width := Q.ofInt prev_item.text.length * char_width
      let prev_end_x := prev_item.x + estimated_prev_width
      let gap := curr_item.x - prev_end_x
      match prev_last, curr_first with
      | some p, some c =>
        if p.isAlpha ∧ c.isAlpha then
          if (p.isUpper ∧ c.isUpper) ∨ (p.isLower ∧ c.isLower) then
            gap < char_width * 0.8
          else if p.isLower ∧ c.isUpper then false
          else gap < char_width * 0.3
        else gap < char_width * 0.5
      | _, _ => gap < char_width * 0.5

/-- Model of `TextLine::needs_space_between` in `src/extractor.rs`. -/
def needs_space_between (prev_item item : TextItem) (result : Str) : Bool :=
  let text := item.text
  let prev_ends_with_hyphen := result.getLast? = some '-'
  let curr_is_hyphen := strTrim text = ['-']
  let curr_starts_with_hyphen := text.head? = some '-'
  let font_ratio := item.font_size / prev_item.font_size
  let reverse_font_ratio := prev_item.font_size / item.font_size
  let y_diff := Q.abs (item.y - prev_item.y)
  let is_sub_super := font_ratio < 0.85 ∧ (1 : Q) < y_diff
  let was_sub_super := reverse_font_ratio < 0.85 ∧ (1 : Q) < y_diff
  let should_join := should_join_items prev_item item
  let prev_ends_with_space := result.getLast? = some ' '
  let curr_starts_with_space := text.head? = some ' '
  let space_already_exists := prev_ends_with_space ∨ curr_starts_with_space
  !(prev_ends_with_hyphen ∨ curr_is_hyphen ∨ curr_starts_with_hyphen ∨ is_sub_super ∨
    was_sub_super ∨ should_join ∨ space_already_exists)

/-- Worker for `TextLine::text_plain`: walks the items carrying the previous
list element. -/
def textPlainGo (prev : TextItem) (result : Str) : List TextItem → Str
  | [] => result
  | item :: rest =>
    let result :=
      if needs_space_between prev item result then result ++ [' '] ++ item.text
      else result ++ item.text
    textPlainGo item result rest

/-- Model of `TextLine::text_plain` in `src/extractor.rs`. -/
def textPlain (items : List TextItem) : Str :=
  match items with
  | [] => []
  | first :: rest => textPlainGo first first.text rest

/-- Worker for `TextLine::text_with_formatting`.  `prev` is the previous list
element (`items[i-1]`, even when that item was skipped as empty). -/
def textFmtGo (format_bold format_italic : Bool) (prev : Option TextItem)
    (result : Str) (current_bold current_italic : Bool) : List TextItem → Str
  | [] =>
    let result := if current_italic then result ++ ['*'] else result
    if current_bold then result ++ "**".toList else result
  | item :: rest =>
    let text_trimmed := strTrim item.text
    if text_trimmed.isEmpty then
      textFmtGo format_bold format_italic (some item) result current_bold current_italic rest
    else
      let needs_space :=
        match prev with
        | none => false
        | some prev_item =>
          if result.isEmpty then false else needs_space_between prev_item item result
      let item_bold := format_bold && item.is_bold
      let item_italic := format_italic && item.is_italic
      let result := if current_italic && !item_italic then result ++ ['*'] else result
      let current_italic' := current_italic && item_italic
      let result := if current_bold && !item_bold then result ++ "**".toList else result
      let current_bold' := current_bold && item_bold
      let result := if needs_space then result ++ [' '] else result
      let result := if item_bold && !current_bold' then result ++ "**".toList else result
      let current_bold'' := item_bold
      let result := if item_italic && !current_italic' then result ++ ['*'] else result
      let current_italic'' := item_italic
      textFmtGo format_bold format_italic (some item) (result ++ text_trimmed)
        current_bold'' current_italic'' rest

namespace TextLine

/-- Model of `TextLine::text_with_formatting` in `src/extractor.rs`. -/
def text_with_formatting (l : TextLine) (format_bold format_italic : Bool) : Str :=
  if !format_bold && !format_italic then textPlain l.items
  else textFmtGo format_bold format_italic none [] false false l.items

/-- Model of `TextLine::text` in `src/extractor.rs`. -/
def text (l : TextLine) : Str := l.text_with_formatting false false

end TextLine

/-! ## `src/extractor.rs`: reading-order & column resolver -/

/-- Model of `effective_width` in `src/extractor.rs`. -/
def effective_width (item : TextItem) : Q :=
  if (0 : Q) < item.width then item.width
  else Q.ofInt item.text.length * item.font_size * 0.5

/-- Model of `ColumnRegion` in `src/extractor.rs`. -/
structure ColumnRegion where
  x_min : Q
  x_max : Q
deriving DecidableEq

/-- Minimum of a list of values (the Rust `fold(f32::INFINITY, f32::min)`;
the default only matters for empty lists, which every use site guards). -/
def minQ (dflt : Q) : List Q → Q
  | [] => dflt
  | x :: xs => xs.foldl Q.min x

/-- Maximum of a list of values (`fold(f32::NEG_INFINITY, f32::max)`). -/
def maxQ (dflt : Q) : List Q → Q
  | [] => dflt
  | x :: xs => xs.foldl Q.max x

/-- Model of `floor() as usize` (saturating at zero, as Rust float→int casts do). -/
def Q.floorNat (a : Q) : Nat := (a.num / a.den).toNat

/-- Model of `ceil() as usize` (saturating at zero). -/
def Q.ceilNat (a : Q) : Nat := (-(-a.num / a.den)).toNat

/-- Build the occupancy histogram of `detect_columns`: one pass per item
incrementing the bins `left ≤ i < right`. -/
def buildHistogram (num_bins : Nat) (x_min : Q) (page_items : List TextItem) :
    List Nat :=
  page_items.foldl
    (fun hist item =>
      let w := effective_width item
      let left := Nat.min (Q.floorNat ((item.x - x_min) / 2)) num_bins
      let right := Nat.min (Q.ceilNat ((item.x + w - x_min) / 2)) num_bins
      (hist.zip (List.range num_bins)).map fun p => if left ≤ p.2 ∧ p.2 < right then p.1 + 1 else p.1)
    (List.replicate num_bins 0)

/-- Scan the histogram for valleys (maximal runs of bins at or below the
noise threshold), closing a final open valley at `num_bins`. -/
def findValleys (noise_threshold : Nat) (histogram : List Nat) (num_bins : Nat) :
    List (Nat × Nat) :=
  let scan :=
    (histogram.zip (List.range num_bins)).foldl
      (fun acc p =>
        let valleys := acc.1
        let valley_start := acc.2
        if p.1 ≤ noise_threshold then
          match valley_start with
          | none => (valleys, some p.2)
          | some _ => acc
        else
          match valley_start with
          | some start => (valleys ++ [(start, p.2)], none)
          | none => acc)
      (([] : List (Nat × Nat)), (none : Option Nat))
  match scan.2 with
  | some start => scan.1 ++ [(start, num_bins)]
  | none => scan.1

/-- Model of `detect_columns` in `src/extractor.rs`: occupancy-histogram gutter
detection with margin, width, item-count and vertical-overlap validation,
capped at 3 gutters (keeping the widest). -/
def detect_columns (items : List TextItem) (page : Nat) : List ColumnRegion :=
  let page_items := items.filter fun i => i.page = page
  if page_items.isEmpty then []
  else
    let x_min := minQ 0 (page_items.map (·.x))
    let x_max := maxQ 0 (page_items.map fun i => i.x + effective_width i)
    let page_width := x_max - x_min
    if page_width < 200 then [⟨x_min, x_max⟩]
    else if page_items.length < 20 then [⟨x_min, x_max⟩]
    else
      let num_bins := Nat.max (Q.ceilNat (page_width / 2)) 1
      let histogram := buildHistogram num_bins x_min page_items
      let max_count := (maxQ 0 (histogram.map Q.ofInt)).num.toNat
      let noise_threshold := (Q.toIntTrunc (Q.ofInt max_count * 0.05)).toNat
      let valleys := findValleys noise_threshold histogram num_bins
      let margin_threshold := page_width * 0.05
      let valleys := valleys.filter fun v =>
        let width_pts := Q.ofInt ((v.2 : Int) - (v.1 : Int)) * 2
        if width_pts < 8 then false
        else
          let center_pts := Q.ofInt ((v.1 : Int) + (v.2 : Int)) / 2 * 2
          margin_threshold < center_pts ∧ center_pts < page_width - margin_threshold
      if valleys.isEmpty then [⟨x_min, x_max⟩]
      else
        let y_min := minQ 0 (page_items.map (·.y))
        let y_max := maxQ 0 (page_items.map (·.y))
        let y_range := y_max - y_min
        let valid_valleys := valleys.filter fun v =>
          let gutter_left := x_min + Q.ofInt v.1 * 2
          let gutter_right := x_min + Q.ofInt v.2 * 2
          let gutter_center := (gutter_left + gutter_right) / 2
          let left_items := page_items.filter fun i => i.x + effective_width i ≤ gutter_center
          let right_items := page_items.filter fun i => gutter_center ≤ i.x
          if left_items.length < 10 ∨ right_items.length < 10 then false
          else if (0 : Q) < y_range then
            let left_y_min := minQ 0 (left_items.map (·.y))
            let left_y_max := maxQ 0 (left_items.map (·.y))
            let right_y_min := minQ 0 (right_items.map (·.y))
            let right_y_max := maxQ 0 (right_items.map (·.y))
            let overlap_min := Q.max left_y_min right_y_min
            let overlap_max := Q.min left_y_max right_y_max
            let overlap := Q.max (overlap_max - overlap_min) 0
            ¬(overlap / y_range < 0.30)
          else true
        if valid_valleys.isEmpty then [⟨x_min, x_max⟩]
        else
          let valid_valleys :=
            if 3 < valid_valleys.length then
              let byWidth := sortByStable
                (fun a b => Q.ofInt ((b.2 : Int) - (b.1 : Int)) ≤ Q.ofInt ((a.2 : Int) - (a.1 : Int)))
                valid_valleys
              sortByStable (fun a b => a.1 ≤ b.1) (byWidth.take 3)
            else valid_valleys
          let built := valid_valleys.foldl
            (fun acc v =>
              let gutter_center := x_min + Q.ofInt ((v.1 : Int) + (v.2 : Int)) / 2 * 2
              (acc.1 ++ [ColumnRegion.mk acc.2 gutter_center], gutter_center))
            (([] : List ColumnRegion), x_min)
          built.1 ++ [⟨built.2, x_max⟩]

/-- Model of `spans_multiple_columns` in `src/extractor.rs`. -/
def spans_multiple_columns (item : TextItem) (columns : List ColumnRegion) : Bool :=
  let w := effective_width item
  let item_right := item.x + w
  let overlap_count := (columns.filter fun col =>
    let overlap_start := Q.max item.x col.x_min
    let overlap_end := Q.min item_right col.x_max
    let overlap := Q.max (overlap_end - overlap_start) 0
    (col.x_max - col.x_min) * 0.10 < overlap ∨ (20 : Q) < overlap).length
  2 ≤ overlap_count

/-- Model of `is_page_number` in `src/extractor.rs`: 1–4 ASCII digits at the very top
(`y > 800`) or bottom (`y < 100`) of the page. -/
def is_page_number (item : TextItem) : Bool :=
  let text := strTrim item.text
  if text.isEmpty ∨ 4 < strLen text then false
  else if !text.all (·.isDigit) then false
  else (800 : Q) < item.y ∨ item.y < 100

/-- Model of `should_use_y_sorting` in `src/extractor.rs`: counts large Y jumps in
stream order; chaotic order (≥3 jumps, >40% upward) triggers a Y re-sort. -/
def should_use_y_sorting (items : List TextItem) : Bool :=
  if items.length < 5 then false
  else
    let ys := items.map (·.y)
    let jumps := (ys.zip ys.tail).foldl
      (fun acc p =>
        let delta := p.2 - p.1
        if (50 : Q) < delta then (acc.1 + 1, acc.2)
        else if delta < -(50 : Q) then (acc.1, acc.2 + 1)
        else acc)
      ((0, 0) : Nat × Nat)
    let total := jumps.1 + jumps.2
    if total < 3 then false
    else (0.4 : Q) < Q.ofInt jumps.1 / Q.ofInt total

/-- The `should_merge` decision of `group_single_column`. -/
def shouldMergeLine (last_line : TextLine) (item : TextItem) : Bool :=
  if last_line.page ≠ item.page then false
  else
    let y_diff := Q.abs (last_line.y - item.y)
    if (3 : Q) ≤ y_diff then false
    else
      let has_y_change := (0.5 : Q) < y_diff
      if has_y_change then
        match last_line.items.head? with
        | some first_item =>
          let at_same_x := Q.abs (item.x - first_item.x) < 5
          if at_same_x then false
          else
            match last_line.items.getLast? with
            | some last_item => ¬(item.x < last_item.x - 10)
            | none => true
        | none => true
      else true

/-- Model of `group_single_column` in `src/extractor.rs`: optional Y re-sort, greedy
merge into the most recent line, then an X ascending sort inside each line. -/
def group_single_column (items : List TextItem) : List TextLine :=
  if items.isEmpty then []
  else
    let use_y_sorting := should_use_y_sorting items
    let items :=
      if use_y_sorting then
        sortByStable
          (fun a b => b.y < a.y ∨ (¬b.y < a.y ∧ ¬a.y < b.y ∧ a.x ≤ b.x)) items
      else items
    let lines := items.foldl
      (fun lines item =>
        let merge := match lines.getLast? with
          | some last_line => shouldMergeLine last_line item
          | none => false
        if merge then
          match lines.getLast? with
          | some last_line =>
            lines.dropLast ++ [{ last_line with items := last_line.items ++ [item] }]
          | none => lines
        else lines ++ [⟨[item], item.y, item.page⟩])
      ([] : List TextLine)
    lines.map fun line =>
      { line with items := sortByStable (fun a b => a.x ≤ b.x) line.items }

/-- The spanning/column interleave of the multi-column branch of
`group_into_lines`: spanning lines (higher Y first) merge into the
column-line stream. -/
def mergeSpanningGo : Nat → List TextLine → List TextLine → List TextLine
  | 0, spans, cols => spans ++ cols
  | _, [], cols => cols
  | _, spans, [] => spans
  | fuel + 1, span :: spans, col :: cols =>
    if col.y ≤ span.y then span :: mergeSpanningGo fuel spans (col :: cols)
    else col :: mergeSpanningGo fuel (span :: spans) cols

def mergeSpanning (spans cols : List TextLine) : List TextLine :=
  mergeSpanningGo (spans.length + cols.length) spans cols

/-- Remove adjacent duplicates (`Vec::dedup`). -/
def dedupAdj : List Nat → List Nat
  | [] => []
  | [x] => [x]
  | x :: y :: rest => if x = y then dedupAdj (y :: rest) else x :: dedupAdj (y :: rest)

/-- The per-page body of `group_into_lines`. -/
def groupPage (page_items : List TextItem) (page : Nat) : List TextLine :=
  let columns := detect_columns page_items page
  if columns.length ≤ 1 then group_single_column page_items
  else
    let spanning_items := page_items.filter fun i => spans_multiple_columns i columns
    let column_items := page_items.filter fun i => !spans_multiple_columns i columns
    let column_lines := columns.foldl
      (fun acc column =>
        let col_items := column_items.filter fun i =>
          let center := i.x + effective_width i / 2
          column.x_min ≤ center ∧ center < column.x_max
        acc ++ group_single_column col_items)
      ([] : List TextLine)
    let spanning_lines := group_single_column spanning_items
    let spanning_lines := sortByStable (fun a b => b.y ≤ a.y) spanning_lines
    mergeSpanning spanning_lines column_lines

/-- Model of `group_into_lines` in `src/extractor.rs`: page-number-shaped items are
dropped first (unconditionally — there is no option parameter), then each
page is grouped (single- or multi-column). -/
def group_into_lines (items : List TextItem) : List TextLine :=
  if items.isEmpty then []
  else
    let items := items.filter fun item => !is_page_number item
    let pages := dedupAdj (sortByStable (fun a b => a ≤ b) (items.map (·.page)))
    pages.foldl
      (fun all_lines page =>
        all_lines ++ groupPage (items.filter fun i => i.page = page) page)
      []

/-! ## `src/tables.rs`: table detection -/

/-- Model of `TableDetectionMode` in `src/tables.rs`. -/
inductive TableDetectionMode where
  | smallFont : TableDetectionMode
  | bodyFont : TableDetectionMode
deriving DecidableEq

/-- Model of `Table` in `src/tables.rs`. -/
structure Table where
  columns : List Q
  rows : List Q
  cells : List (List Str)
  item_indices : List Nat
deriving DecidableEq

/-- Model of `looks_like_number` in `src/tables.rs`. -/
def looks_like_number (s : Str) : Bool :=
  let s := strTrim s
  if s.isEmpty then false
  else
    s.all (fun c => c.isDigit || c == '.' || c == ',' || c == '-' || c == '+') &&
      s.any (·.isDigit)

/-- Model of `looks_like_table_data` in `src/tables.rs`. -/
def looks_like_table_data (s : Str) : Bool :=
  let s := strTrim s
  if s.isEmpty then false
  else if looks_like_number s then true
  else if strLen s ≤ 10 ∧ s.all (·.isAlphanum) ∧ s.any (·.isDigit) then true
  else
    let has_number := s.any (·.isDigit)
    let has_unit := s.contains '°' || s.contains 'V' || s.contains 'A' ||
      containsSub s "Hz".toList || containsSub s "mA".toList || s.contains 'µ' ||
      containsSub s "pin".toList || containsSub s "MHz".toList ||
      containsSub s "kHz".toList
    if has_number ∧ has_unit then true
    else if s.contains '(' ∧ s.contains ')' ∧ s.any (·.isDigit) then true
    else (containsSub s "°C".toList ∨ containsSub s "°F".toList) ∧
      containsSub s "to".toList

/-- Model of `is_key_value_layout` in `src/tables.rs`. -/
def is_key_value_layout (cells : List (List Str)) : Bool :=
  if cells.isEmpty then false
  else
    let num_cols := (cells.headD []).length
    let stats := cells.foldl
      (fun acc row =>
        let filled_count := (row.filter fun c => !c.isEmpty).length
        let acc := if filled_count ≤ 2 then (acc.1, acc.2 + 1) else acc
        let first := strTrim (row.headD [])
        if endsWithStr first [':'] ∨
            (3 < strLen first ∧
              first.all fun c => c.isUpper || isWs c || c == '(' || c == ')') then
          (acc.1 + 1, acc.2)
        else acc)
      ((0, 0) : Nat × Nat)
    let pct_two_or_less := Q.ofInt stats.2 / Q.ofInt cells.length
    let pct_label_like := Q.ofInt stats.1 / Q.ofInt cells.length
    (0.7 : Q) < pct_two_or_less ∧ (0.5 : Q) < pct_label_like ∧ num_cols ≤ 6

/-- Model of `has_consistent_columns` in `src/tables.rs`.  The most common filled
count comes from `max_by_key` over a `HashMap`, hence the iteration-order
parameter. -/
def has_consistent_columns (ordC : List (Nat × Nat) → List (Nat × Nat))
    (cells : List (List Str)) : Bool :=
  if cells.length < 3 then true
  else
    let filled_counts := cells.map fun row => (row.filter fun c => !c.isEmpty).length
    let count_freq := countEntries filled_counts
    let most_common_count := ((maxByKeyLast (ordC count_freq)).map (·.1)).getD 0
    let consistent_rows := (filled_counts.filter fun c =>
      most_common_count - 2 ≤ c ∧ c ≤ most_common_count + 2).length
    (0.4 : Q) < Q.ofInt consistent_rows / Q.ofInt cells.length

/-- Model of `has_table_like_content` in `src/tables.rs`. -/
def has_table_like_content (cells : List (List Str)) (mode : TableDetectionMode) : Bool :=
  let counts := (cells.drop 1).foldl
    (fun acc row =>
      row.foldl
        (fun acc cell =>
          let trimmed := strTrim cell
          if !trimmed.isEmpty then
            if looks_like_table_data trimmed then (acc.1 + 1, acc.2 + 1)
            else (acc.1, acc.2 + 1)
          else acc)
        acc)
    ((0, 0) : Nat × Nat)
  if counts.2 = 0 then false
  else
    let pct_data := Q.ofInt counts.1 / Q.ofInt counts.2
    let num_cols := (cells.headD []).length
    let min_pct : Q := match mode with
      | .smallFont => 0.2
      | .bodyFont => 0.3
    min_pct < pct_data ∨ (mode = .smallFont ∧ 5 ≤ num_cols)

/-- Model of `is_table_of_contents` in `src/tables.rs`. -/
def is_table_of_contents (cells : List (List Str)) : Bool :=
  if cells.isEmpty then false
  else
    let stats := cells.foldl
      (fun acc row =>
        row.foldl
          (fun acc cell =>
            let (dots, pages, total) := acc
            let trimmed := strTrim cell
            if trimmed.isEmpty then acc
            else
              let total := total + 1
              let dot_count := trimmed.count '.'
              let is_mostly_dots := strLen trimmed / 2 < dot_count ∧ 3 ≤ dot_count
              let dots := if is_mostly_dots then dots + 1 else dots
              let digits_only := trimmed.filter fun c => !isWs c
              let pages :=
                if digits_only.length ≤ 4 ∧ ¬digits_only.isEmpty ∧
                    digits_only.all (·.isDigit) then pages + 1
                else pages
              (dots, pages, total))
          acc)
      ((0, 0, 0) : Nat × Nat × Nat)
    if stats.2.2 = 0 then false
    else
      let dot_ratio := Q.ofInt stats.1 / Q.ofInt stats.2.2
      let page_num_ratio := Q.ofInt stats.2.1 / Q.ofInt stats.2.2
      (0.15 : Q) < dot_ratio ∨ ((0.05 : Q) < dot_ratio ∧ (0.15 : Q) < page_num_ratio)

/-- Model of `check_column_alignment` in `src/tables.rs`. -/
def check_column_alignment (items : List (Nat × TextItem)) (columns : List Q)
    (mode : TableDetectionMode) : Q :=
  let tolerance : Q := match mode with
    | .smallFont => 40
    | .bodyFont => 30
  let aligned := (items.filter fun p =>
    columns.any fun col => decide (Q.abs (p.2.x - col) < tolerance)).length
  Q.ofInt aligned / Q.ofInt items.length

/-- The running-mean clustering of `find_column_boundaries`. -/
def clusterXs (threshold : Q) (xs : List Q) : List Q :=
  match xs with
  | [] => []
  | x0 :: rest =>
    let scan := rest.foldl
      (fun acc x =>
        let columns := acc.1
        let cluster_items := acc.2
        let cluster_center := (cluster_items.foldl (· + ·) 0) / Q.ofInt cluster_items.length
        if threshold < x - cluster_center then (columns ++ [cluster_center], [x])
        else (columns, cluster_items ++ [x]))
      (([] : List Q), [x0])
    scan.1 ++ [(scan.2.foldl (· + ·) 0) / Q.ofInt scan.2.length]

/-- Model of `find_column_boundaries` in `src/tables.rs`. -/
def find_column_boundaries (items : List (Nat × TextItem)) (mode : TableDetectionMode) :
    List Q :=
  let x_positions := sortByStable (fun a b => a ≤ b) (items.map (·.2.x))
  match x_positions with
  | [] => []
  | _ =>
    let x_range := (maxQ 0 x_positions) - (minQ 0 x_positions)
    let avg_gap :=
      if 1 < x_positions.length then x_range / Q.ofInt (x_positions.length - 1)
      else 60
    let cluster_threshold := Q.clamp avg_gap 25 50
    let columns := clusterXs cluster_threshold x_positions
    let min_items_per_col := Nat.max (items.length / Nat.max columns.length 1 / 4) 2
    let columns := columns.filter fun col_x =>
      min_items_per_col ≤ (items.filter fun p =>
        decide (Q.abs (p.2.x - col_x) < cluster_threshold)).length
    if mode = .bodyFont then
      let total_items := items.length
      if columns.any fun col_x =>
          let count := (items.filter fun p =>
            decide (Q.abs (p.2.x - col_x) < cluster_threshold)).length
          decide ((0.60 : Q) < Q.ofInt count / Q.ofInt total_items) then []
      else columns
    else columns

/-- The descending-Y clustering of `find_row_boundaries`. -/
def clusterYs (threshold : Q) (ys : List Q) : List Q :=
  match ys with
  | [] => []
  | y0 :: rest =>
    let scan := rest.foldl
      (fun acc y =>
        let rows := acc.1
        let cluster_items := acc.2
        let cluster_center := (cluster_items.foldl (· + ·) 0) / Q.ofInt cluster_items.length
        if threshold < cluster_center - y then (rows ++ [cluster_center], [y])
        else (rows, cluster_items ++ [y]))
      (([] : List Q), [y0])
    scan.1 ++ [(scan.2.foldl (· + ·) 0) / Q.ofInt scan.2.length]

/-- Model of `find_row_boundaries` in `src/tables.rs`. -/
def find_row_boundaries (items : List (Nat × TextItem)) : List Q :=
  let y_positions := sortByStable (fun a b => b ≤ a) (items.map (·.2.y))
  clusterYs 10 y_positions

/-- Model of `min_by` keeping the first minimum under the distance key (Rust `min_by`
returns the first of equally-minimal elements). -/
def minByDistFirst (key : Q → Q) : List (Nat × Q) → Option (Nat × Q)
  | [] => none
  | e :: es =>
    match minByDistFirst key es with
    | none => some e
    | some b => if key b.2 < key e.2 then some b else some e

/-- Model of `find_column_index` in `src/tables.rs`. -/
def find_column_index (columns : List Q) (x : Q) : Option Nat :=
  let threshold :=
    if 2 ≤ columns.length then
      let min_gap := minQ 0 ((columns.zip columns.tail).map fun w => Q.abs (w.2 - w.1))
      Q.clamp (min_gap / 2) 25 50
    else 50
  match minByDistFirst (fun col => Q.abs (x - col)) (columns.zip (List.range columns.length) |>.map fun p => (p.2, p.1)) with
  | some (idx, col_x) => if Q.abs (x - col_x) < threshold then some idx else none
  | none => none

/-- Model of `find_row_index` in `src/tables.rs`. -/
def find_row_index (rows : List Q) (y : Q) : Option Nat :=
  match minByDistFirst (fun row => Q.abs (y - row)) (rows.zip (List.range rows.length) |>.map fun p => (p.2, p.1)) with
  | some (idx, row_y) => if Q.abs (y - row_y) < 15 then some idx else none
  | none => none

/-- Worker for `join_cell_items`: carries the previous list element. -/
def joinCellGo (prev : TextItem) (result : Str) : List TextItem → Str
  | [] => result
  | item :: rest =>
    let text := strTrim item.text
    if text.isEmpty then joinCellGo item result rest
    else if result.isEmpty then joinCellGo item text rest
    else
      let prev_ends_with_hyphen := result.getLast? = some '-'
      let curr_is_hyphen := text = ['-']
      let curr_starts_with_hyphen := text.head? = some '-'
      let font_ratio := item.font_size / prev.font_size
      let reverse_font_ratio := prev.font_size / item.font_size
      let y_diff := Q.abs (item.y - prev.y)
      let is_sub_super := font_ratio < 0.85 ∧ (1 : Q) < y_diff
      let was_sub_super := reverse_font_ratio < 0.85 ∧ (1 : Q) < y_diff
      if prev_ends_with_hyphen ∨ curr_is_hyphen ∨ curr_starts_with_hyphen ∨
          is_sub_super ∨ was_sub_super then
        joinCellGo item (result ++ text) rest
      else joinCellGo item (result ++ [' '] ++ text) rest

/-- Model of `join_cell_items` in `src/tables.rs` (the caller pre-sorts by X).
`prev_item` is `items[i-1]`, the previous list element even when it was
skipped as empty. -/
def join_cell_items (items : List TextItem) : Str :=
  match items with
  | [] => []
  | first :: rest =>
    let text := strTrim first.text
    joinCellGo first text rest

/-- Model of `find_table_regions` in `src/tables.rs`: cluster sorted Y
positions into regions separated by >30pt gaps; keep regions of ≥4 items,
padded by 5pt. -/
def find_table_regions (items : List (Nat × TextItem)) : List (Q × Q) :=
  match sortByStable (fun a b => a ≤ b) (items.map (·.2.y)) with
  | [] => []
  | y0 :: rest =>
    let scan := rest.foldl
      (fun acc y =>
        let (regions, region_start, region_end, region_count) := acc
        if (30 : Q) < y - region_end then
          let regions :=
            if 4 ≤ region_count then regions ++ [(region_start - 5, region_end + 5)]
            else regions
          (regions, y, y, 1)
        else (regions, region_start, y, region_count + 1))
      (([] : List (Q × Q)), y0, y0, (1 : Nat))
    if 4 ≤ scan.2.2.2 then scan.1 ++ [(scan.2.1 - 5, scan.2.2.1 + 5)]
    else scan.1

/-- Step 1 of `find_table_regions_strict`: group items by Y (8pt tolerance),
appending each X to the first matching group. -/
def placeInRowGroup (y x : Q) : List (Q × List Q) → Option (List (Q × List Q))
  | [] => none
  | g :: gs =>
    if Q.abs (y - g.1) < 8 then some ((g.1, g.2 ++ [x]) :: gs)
    else (placeInRowGroup y x gs).map (g :: ·)

def rowGroupsOf (items : List (Nat × TextItem)) : List (Q × List Q) :=
  items.foldl
    (fun groups p =>
      match placeInRowGroup p.2.y p.2.x groups with
      | some groups => groups
      | none => groups ++ [(p.2.y, [p.2.x])])
    []

/-- Step 2 of `find_table_regions_strict`: X-cluster starts (20pt tolerance)
of one row. -/
def clusterStartsOf (x_positions : List Q) : List Q :=
  match sortByStable (fun a b => a ≤ b) x_positions with
  | [] => []
  | x0 :: rest =>
    (rest.foldl
      (fun acc x =>
        if (20 : Q) < x - acc.2 then (acc.1 ++ [x], x) else acc)
      (([x0] : List Q), x0)).1

/-- The pairwise `(i, j)` combinations (in loop order) of a list. -/
def allPairs {α : Type} : List α → List (α × α)
  | [] => []
  | x :: xs => xs.map (fun y => (x, y)) ++ allPairs xs

/-- Step 4 of `find_table_regions_strict`: the average pairwise
column-alignment score of a candidate region. -/
def regionAlignScore (region_rows : List (Q × List Q)) : Q :=
  let scan := (allPairs region_rows).foldl
    (fun acc p =>
      let centers_a := p.1.2
      let centers_b := p.2.2
      let matches_a := (centers_a.filter fun a =>
        centers_b.any fun b => decide (Q.abs (a - b) < 10)).length
      let matches_b := (centers_b.filter fun b =>
        centers_a.any fun a => decide (Q.abs (a - b) < 10)).length
      let max_len := Nat.max centers_a.length centers_b.length
      if 0 < max_len then
        (acc.1 + Q.ofInt (matches_a + matches_b) / Q.ofInt (2 * max_len), acc.2 + 1)
      else acc)
    ((0 : Q), (0 : Nat))
  if 0 < scan.2 then scan.1 / Q.ofInt scan.2 else 0

/-- Step 3 of `find_table_regions_strict`: contiguous runs of qualifying rows
(25pt max Y-gap), keeping runs of ≥3 rows. -/
def contiguousRuns (qualifying_rows : List (Q × List Q)) : List (List (Q × List Q)) :=
  match qualifying_rows with
  | [] => []
  | r0 :: rest =>
    let scan := rest.foldl
      (fun acc row =>
        let (regions, current) := acc
        let prev_y := ((current.getLast?).map (·.1)).getD 0
        if (25 : Q) < row.1 - prev_y then
          let regions := if 3 ≤ current.length then regions ++ [current] else regions
          (regions, [row])
        else (regions, current ++ [row]))
      (([] : List (List (Q × List Q))), [r0])
    if 3 ≤ scan.2.length then scan.1 ++ [scan.2] else scan.1

/-- Model of `find_table_regions_strict` in `src/tables.rs`. -/
def find_table_regions_strict (items : List (Nat × TextItem)) : List (Q × Q) :=
  if items.isEmpty then []
  else
    let row_groups := rowGroupsOf items
    let qualifying_rows := row_groups.filterMap fun g =>
      let cluster_starts := clusterStartsOf g.2
      if 3 ≤ cluster_starts.length then some (g.1, cluster_starts) else none
    if qualifying_rows.length < 3 then []
    else
      let qualifying_rows := sortByStable (fun a b => a.1 ≤ b.1) qualifying_rows
      let candidate_regions := contiguousRuns qualifying_rows
      candidate_regions.filterMap fun region_rows =>
        if (0.5 : Q) ≤ regionAlignScore region_rows then
          some ((((region_rows.head?).map (·.1)).getD 0) - 5,
            (((region_rows.getLast?).map (·.1)).getD 0) + 5)
        else none

/-- The per-row scan of `find_first_table_row`: `cells[idx]` with a lookahead
at `cells[idx+1]`; returns the first row that looks like table data/header,
or 0 when the loop runs out. -/
def findFirstRowGo (total_cols : Nat) (idx : Nat) : List (List Str) → Nat
  | [] => 0
  | row :: rest =>
    let filled_cells := row.filter fun c => !(strTrim c).isEmpty
    let filled_count := filled_cells.length
    let fill_ratio := Q.ofInt filled_count / Q.ofInt total_cols
    let has_form_patterns := filled_cells.any fun c =>
      let text := strTrim c
      (endsWithStr text [':'] ∧ 1 < strLen text) ∨
        (containsSub text ": ".toList ∧ ¬looks_like_number text)
    let numeric_count := (filled_cells.filter fun c => looks_like_number (strTrim c)).length
    let has_data := 2 ≤ numeric_count
    if has_form_patterns then findFirstRowGo total_cols (idx + 1) rest
    else if has_data then idx
    else if (0.4 : Q) ≤ fill_ratio then idx
    else if fill_ratio < 0.3 then findFirstRowGo total_cols (idx + 1) rest
    else
      match rest.head? with
      | some next_row =>
        let next_filled := (next_row.filter fun c => !(strTrim c).isEmpty).length
        let next_fill_ratio := Q.ofInt next_filled / Q.ofInt total_cols
        let next_has_form := next_row.any fun c =>
          let text := strTrim c
          (endsWithStr text [':'] ∧ 1 < strLen text) ∨
            (containsSub text ": ".toList ∧ ¬looks_like_number text)
        let next_numeric := (next_row.filter fun c => looks_like_number (strTrim c)).length
        if ((0.4 : Q) ≤ next_fill_ratio ∨ 2 ≤ next_numeric) ∧ ¬next_has_form then idx
        else findFirstRowGo total_cols (idx + 1) rest
      | none => findFirstRowGo total_cols (idx + 1) rest

/-- Model of `find_first_table_row` in `src/tables.rs`: the first
table-looking row and the item indices of the skipped leading rows. -/
def find_first_table_row (cell_items : List (List (List TextItem))) (rows : List Q)
    (original_items : List (Nat × TextItem)) : Nat × List Nat :=
  let cells : List (List Str) := cell_items.map fun row => row.map join_cell_items
  if cells.isEmpty then (0, [])
  else
    let total_cols := (cells.headD []).length
    let first_table_row := findFirstRowGo total_cols 0 cells
    let excluded :=
      if 0 < first_table_row then
        original_items.filterMap fun p =>
          if (rows.take first_table_row).any fun row_y =>
              decide (Q.abs (p.2.y - row_y) < 15) then
            some p.1
          else none
      else []
    (first_table_row, excluded)

/-- Model of `detect_table_in_region` in `src/tables.rs`: column/row
clustering, the grid build, form-header trimming and validations 1–8. -/
def detect_table_in_region (ordC : List (Nat × Nat) → List (Nat × Nat))
    (items : List (Nat × TextItem)) (mode : TableDetectionMode) : Option Table :=
  let columns := find_column_boundaries items mode
  let min_cols : Nat := match mode with
    | .smallFont => 2
    | .bodyFont => 3
  if columns.length < min_cols ∨ 15 < columns.length then none
  else
    let rows := find_row_boundaries items
    let min_rows : Nat := match mode with
      | .smallFont => 2
      | .bodyFont => 3
    if rows.length < min_rows then none
    else
      let min_alignment : Q := match mode with
        | .smallFont => 0.5
        | .bodyFont => 0.7
      if check_column_alignment items columns mode < min_alignment then none
      else
        let empty_grid : List (List (List TextItem)) :=
          List.replicate rows.length (List.replicate columns.length [])
        let filled := items.foldl
          (fun acc p =>
            match find_column_index columns p.2.x, find_row_index rows p.2.y with
            | some col, some row =>
              (acc.1.set row ((acc.1.getD row []).set col
                (((acc.1.getD row []).getD col []) ++ [p.2])), acc.2 ++ [p.1])
            | _, _ => acc)
          ((empty_grid, ([] : List Nat)))
        let cell_items := filled.1
        let item_indices := filled.2
        let ftr := find_first_table_row cell_items rows items
        let first_table_row := ftr.1
        let excluded_items := ftr.2
        let item_indices := item_indices.filter fun idx => ¬excluded_items.contains idx
        let rows := if 0 < first_table_row then rows.drop first_table_row else rows
        let cell_items :=
          if 0 < first_table_row then cell_items.drop first_table_row else cell_items
        let cells : List (List Str) := cell_items.map fun row_items =>
          row_items.map fun col_items =>
            join_cell_items (sortByStable (fun a b => a.x ≤ b.x) col_items)
        let rows_with_first_col := (cells.filter fun row => !(row.headD []).isEmpty).length
        if rows_with_first_col < rows.length / 2 then none
        else
          let rows_with_multi_cols := (cells.filter fun row =>
            2 ≤ (row.filter fun c => !c.isEmpty).length).length
          let multi_col_threshold : Nat := match mode with
            | .smallFont => Nat.max (rows.length / 3) 1
            | .bodyFont => Nat.max (rows.length / 2) 1
          if rows_with_multi_cols < multi_col_threshold then none
          else
            let max_rows : Nat := match mode with
              | .smallFont => 50
              | .bodyFont => 100
            if max_rows < rows.length then none
            else
              let total_filled := (cells.map fun row =>
                (row.filter fun c => !c.isEmpty).length).sum
              let avg_cells_per_row := Q.ofInt total_filled / Q.ofInt rows.length
              let min_avg_cells : Q := match mode with
                | .smallFont => 1.5
                | .bodyFont => 2.5
              if avg_cells_per_row < min_avg_cells then none
              else if is_key_value_layout cells then none
              else if ¬has_consistent_columns ordC cells then none
              else if ¬has_table_like_content cells mode then none
              else if is_table_of_contents cells then none
              else some ⟨columns, rows, cells, item_indices⟩

/-- Model of `detect_tables` in `src/tables.rs`: pass 1 over small-font
candidates, pass 2 over unclaimed body-font candidates with stricter gates. -/
def detect_tables (ordC : List (Nat × Nat) → List (Nat × Nat))
    (items : List TextItem) (base_font_size : Q) : List Table :=
  if items.length < 6 then []
  else
    let indexed := (items.zip (List.range items.length)).map fun p => (p.2, p.1)
    let table_font_threshold := base_font_size * 0.90
    let table_candidates := indexed.filter fun p =>
      p.2.font_size ≤ table_font_threshold ∧ (6 : Q) ≤ p.2.font_size
    let pass1 :=
      if 6 ≤ table_candidates.length then
        (find_table_regions table_candidates).foldl
          (fun acc region =>
            let region_items := table_candidates.filter fun p =>
              region.1 ≤ p.2.y ∧ p.2.y ≤ region.2
            if region_items.length < 6 then acc
            else
              match detect_table_in_region ordC region_items .smallFont with
              | some table => (acc.1 ++ [table], acc.2 ++ table.item_indices)
              | none => acc)
          (([] : List Table), ([] : List Nat))
      else ([], [])
    let tables := pass1.1
    let claimed_indices := pass1.2
    let body_font_low := base_font_size * 0.85
    let body_font_high := base_font_size * 1.05
    let body_candidates := indexed.filter fun p =>
      ¬claimed_indices.contains p.1 ∧ body_font_low ≤ p.2.font_size ∧
        p.2.font_size ≤ body_font_high ∧ (6 : Q) ≤ p.2.font_size
    if 9 ≤ body_candidates.length then
      tables ++ (find_table_regions_strict body_candidates).foldl
        (fun acc region =>
          let region_items := body_candidates.filter fun p =>
            region.1 ≤ p.2.y ∧ p.2.y ≤ region.2
          if region_items.length < 9 then acc
          else
            match detect_table_in_region ordC region_items .bodyFont with
            | some table => acc ++ [table]
            | none => acc)
        []
    else tables

/-! ## `src/markdown.rs`: structural classifier & Markdown emitter -/

/-- Model of `MarkdownOptions` in `src/markdown.rs`. -/
structure MarkdownOptions where
  detect_headers : Bool
  detect_lists : Bool
  detect_code : Bool
  base_font_size : Option Q
  remove_page_numbers : Bool
  format_urls : Bool
  fix_hyphenation : Bool
  detect_bold : Bool
  detect_italic : Bool
  include_images : Bool
  include_links : Bool

/-- Model of `MarkdownOptions::default`. -/
def MarkdownOptions.default : MarkdownOptions :=
  ⟨true, true, true, none, true, true, true, true, true, true, true⟩

/-- Model of `calculate_font_stats_from_items` in `src/markdown.rs`: histogram
of `(font_size * 10) as i32` over items with size ≥ 9, then the Rust
`max_by_key` over the `HashMap` (hence the iteration-order parameter). -/
def calculate_font_stats_from_items (ord : HmOrd) (items : List TextItem) : Q :=
  let keys := items.filterMap fun item =>
    if (9 : Q) ≤ item.font_size then some (Q.toIntTrunc (item.font_size * 10)) else none
  let size_counts := countEntries keys
  ((maxByKeyLast (ord.ordSizes size_counts)).map fun p => Q.ofInt p.1 / 10).getD 12

/-- Model of `calculate_font_stats` in `src/markdown.rs`: like the item
version but one count per line (first item). -/
def calculate_font_stats (ord : HmOrd) (lines : List TextLine) : Q :=
  let keys := lines.filterMap fun line =>
    match line.items.head? with
    | some first =>
      if (9 : Q) ≤ first.font_size then some (Q.toIntTrunc (first.font_size * 10)) else none
    | none => none
  let size_counts := countEntries keys
  ((maxByKeyLast (ord.ordSizes size_counts)).map fun p => Q.ofInt p.1 / 10).getD 12

/-- The drop-cap target search of `merge_drop_caps`: the first
lowercase-starting paragraph-initial line of the same page among the already
processed lines. -/
def findDropTarget (page : Nat) (result : List TextLine) : Option Nat :=
  let rec go (idx : Nat) : List TextLine → Option Nat
    | [] => none
    | prev_line :: rest =>
      if prev_line.page ≠ page then go (idx + 1) rest
      else
        let prev_trimmed := strTrim prev_line.text
        if (prev_trimmed.head?.map Char.isLower).getD false then
          let is_para_start :=
            if idx = 0 then true
            else
              match result.get? (idx - 1) with
              | some before =>
                !((strTrim before.text).head?.map Char.isLower).getD true
              | none => true
          if is_para_start then some idx else go (idx + 1) rest
        else go (idx + 1) rest
  go 0 result

/-- Model of `merge_drop_caps` in `src/markdown.rs`: a ≤2-character line at
≥2.5× the base size starting with an uppercase letter is removed and its
first character prepended to the first lowercase-starting paragraph-initial
line of the page. -/
def merge_drop_caps (lines : List TextLine) (base_size : Q) : List TextLine :=
  lines.foldl
    (fun result line =>
      let trimmed := strTrim line.text
      let is_drop_cap := strLen trimmed ≤ 2 ∧
        base_size * 2.5 ≤ ((line.items.head?.map (·.font_size)).getD 0) ∧
        (trimmed.head?.map Char.isUpper).getD false
      if is_drop_cap then
        let drop_char := trimmed.headD ' '
        match findDropTarget line.page result with
        | some idx =>
          match result.get? idx with
          | some target =>
            let target' :=
              match target.items with
              | first :: restItems =>
                { target with
                  items := { first with text := drop_char :: strTrim first.text } :: restItems }
              | [] => target
            result.set idx target'
          | none => result
        | none => result
      else result ++ [line])
    []

/-- Model of `compute_heading_tiers` in `src/markdown.rs`: first-item sizes
with `size/body ≥ 1.2`, sorted descending, clustered within 0.5pt, capped at
4 tiers. -/
def compute_heading_tiers (lines : List TextLine) (base_size : Q) : List Q :=
  let heading_sizes := lines.filterMap fun line =>
    match line.items.head? with
    | some first =>
      if (1.2 : Q) ≤ first.font_size / base_size then some first.font_size else none
    | none => none
  let heading_sizes := sortByStable (fun a b => b ≤ a) heading_sizes
  let tiers := heading_sizes.foldl
    (fun tiers size =>
      let already_in_tier := tiers.any fun t => decide (Q.abs (t - size) < 0.5)
      if already_in_tier then tiers else tiers ++ [size])
    ([] : List Q)
  tiers.take 4

/-- The tier-matching scan of `detect_header_level` (first tier within
0.5pt). -/
def tierMatch (font_size : Q) (idx : Nat) : List Q → Option Nat
  | [] => none
  | tier_size :: rest =>
    if Q.abs (font_size - tier_size) < 0.5 then some (idx + 1)
    else tierMatch font_size (idx + 1) rest

/-- Model of `detect_header_level` in `src/markdown.rs`: tier `i` maps to
heading level `i+1`; a large untiered ratio lands after the last tier; the
no-tier fallback uses fixed ratio thresholds. -/
def detect_header_level (font_size base_size : Q) (heading_tiers : List Q) :
    Option Nat :=
  let ratio := font_size / base_size
  if ratio < 1.2 then none
  else if ¬heading_tiers.isEmpty then
    match tierMatch font_size 0 heading_tiers with
    | some level => some level
    | none =>
      if (1.5 : Q) ≤ ratio then some (Nat.min (heading_tiers.length + 1) 4)
      else none
  else if (2 : Q) ≤ ratio then some 1
  else if (1.5 : Q) ≤ ratio then some 2
  else if (1.25 : Q) ≤ ratio then some 3
  else some 4

/-- Model of `merge_heading_lines` in `src/markdown.rs`: a line at the same
heading level, page and within 2× font-size below the previous line has its
items appended to the previous line (the first item gains a leading space). -/
def merge_heading_lines (lines : List TextLine) (base_size : Q)
    (heading_tiers : List Q) : List TextLine :=
  if lines.isEmpty then lines
  else
    lines.foldl
      (fun result line =>
        let line_font := ((line.items.head?.map (·.font_size))).getD base_size
        let line_level := detect_header_level line_font base_size heading_tiers
        let should_merge : Bool :=
          match result.getLast?, line_level with
          | some prev, some curr_level =>
            let prev_font := ((prev.items.head?.map (·.font_size))).getD base_size
            let prev_level := detect_header_level prev_font base_size heading_tiers
            let same_page := prev.page == line.page
            let same_level := prev_level == some curr_level
            let y_gap := prev.y - line.y
            let close_enough := decide ((0 : Q) < y_gap) && decide (y_gap < line_font * 2)
            same_page && same_level && close_enough
          | _, _ => false
        if should_merge then
          match result.getLast? with
          | some prev =>
            let newItems :=
              match line.items.head? with
              | some first_item =>
                [{ first_item with text := ' ' :: trimStart first_item.text }] ++
                  line.items.drop 1
              | none => []
            result.dropLast ++ [{ prev with items := prev.items ++ newItems }]
          | none => result
        else result ++ [line])
      []

/-- Model of `compute_paragraph_threshold` in `src/markdown.rs`: 1.3× the
median same-page line gap (within `(0, 10×base)`), floored at 1.5× base;
fallback 1.8× base when fewer than 5 gaps. -/
def compute_paragraph_threshold (lines : List TextLine) (base_size : Q) : Q :=
  let fallback := base_size * 1.8
  let gaps := (lines.foldl
    (fun acc line =>
      let gaps := acc.1
      let gaps :=
        match acc.2 with
        | some (prev_page, py) =>
          if line.page = prev_page then
            let gap := py - line.y
            if (0 : Q) < gap ∧ gap < base_size * 10 then gaps ++ [gap] else gaps
          else gaps
        | none => gaps
      (gaps, some (line.page, line.y)))
    (([] : List Q), (none : Option (Nat × Q)))).1
  if gaps.length < 5 then fallback
  else
    let gaps := sortByStable (fun a b => a ≤ b) gaps
    let median := gaps.getD (gaps.length / 2) 0
    Q.max (median * 1.3) (base_size * 1.5)

/-- Model of `is_caption_line` in `src/markdown.rs`. -/
def is_caption_line (text : Str) : Bool :=
  let trimmed := strTrim text
  let caption_starts : List Str :=
    ["Figure ".toList, "Figura ".toList, "Fig. ".toList, "Fig ".toList,
     "Table ".toList, "Tabela ".toList, "Source:".toList, "Fonte:".toList,
     "Source ".toList, "Fonte ".toList, "Note:".toList, "Nota:".toList,
     "Chart ".toList, "Gráfico ".toList, "Graph ".toList, "Diagram ".toList,
     "Image ".toList, "Imagem ".toList, "Photo ".toList, "Foto ".toList]
  if caption_starts.any fun p => startsWithStr trimmed p then true
  else
    let lower := strLower trimmed
    startsWithStr lower "figure ".toList || startsWithStr lower "table ".toList ||
      startsWithStr lower "source:".toList

/-- The index of the first occurrence of one of two characters
(`str::find(['.', ')'])`, as a character index — byte index in Rust, equal on
the ASCII inputs below). -/
def findChar2Idx (c1 c2 : Char) : Str → Option Nat
  | [] => none
  | c :: rest =>
    if c = c1 ∨ c = c2 then some 0
    else (findChar2Idx c1 c2 rest).map (· + 1)

/-- Model of `is_list_item` in `src/markdown.rs`. -/
def is_list_item (text : Str) : Bool :=
  let trimmed := trimStart text
  if startsWithStr trimmed "• ".toList || startsWithStr trimmed "- ".toList ||
      startsWithStr trimmed "* ".toList || startsWithStr trimmed "○ ".toList ||
      startsWithStr trimmed "● ".toList || startsWithStr trimmed "◦ ".toList then
    true
  else
    let first_chars := trimmed.take 5
    let numbered :=
      if first_chars.any (·.isDigit) then
        match findChar2Idx '.' ')' first_chars with
        | some idx => (first_chars.take idx).all (·.isDigit)
        | none => false
      else false
    if numbered then true
    else
      match trimmed with
      | first :: second :: rest =>
        if first.isAlpha ∧ (second = '.' ∨ second = ')') then true
        else if first = '(' ∧ rest.head? = some ')' then true
        else false
      | _ => false

/-- Model of `format_list_item` in `src/markdown.rs`. -/
def format_list_item (text : Str) : Str :=
  let trimmed := trimStart text
  let bullets : List Char := ['•', '○', '●', '◦']
  match bullets.findSome? fun b =>
      if trimmed.head? = some b then some (trimmed.drop 1) else none with
  | some rest => "- ".toList ++ trimStart rest
  | none =>
    if startsWithStr trimmed "- ".toList || startsWithStr trimmed "* ".toList then trimmed
    else trimmed

/-- Model of `is_monospace_font` in `src/markdown.rs`. -/
def is_monospace_font (font_name : Str) : Bool :=
  let lower := strLower font_name
  let pats : List Str :=
    ["courier".toList, "consolas".toList, "monaco".toList, "menlo".toList,
     "mono".toList, "fixed".toList, "terminal".toList, "typewriter".toList,
     "source code".toList, "fira code".toList, "jetbrains".toList,
     "inconsolata".toList, "dejavu sans mono".toList, "liberation mono".toList]
  pats.any fun p => containsSub lower p

/-- The letter class of the spaced-hyphen regex in `fix_hyphenation`
(`[a-zA-Z]` plus the listed accented characters). -/
def isHyphLetter (c : Char) : Bool :=
  ('a' ≤ c ∧ c ≤ 'z') ∨ ('A' ≤ c ∧ c ≤ 'Z') ∨
    "áàâãéèêíïóôõöúçñÁÀÂÃÉÈÊÍÏÓÔÕÖÚÇÑ".toList.contains c

/-- Model of `fix_hyphenation` in `src/markdown.rs`: the leftmost
non-overlapping replacement of `letter - letter` by `letter-letter`
(`Regex::replace_all`; scanning resumes after each match). -/
def fixHyphGo : Nat → Str → Str
  | 0, s => s
  | _, [] => []
  | fuel + 1, a :: rest =>
    match rest with
    | ' ' :: '-' :: ' ' :: b :: rest2 =>
      if isHyphLetter a ∧ isHyphLetter b then a :: '-' :: b :: fixHyphGo fuel rest2
      else a :: fixHyphGo fuel rest
    | _ => a :: fixHyphGo fuel rest

def fix_hyphenation (s : Str) : Str := fixHyphGo s.length s

/-- The character index of the first occurrence of a substring pattern
(`str::find` returns a byte index; equal on the ASCII inputs below). -/
def findSubIdx : Str → Str → Option Nat
  | s, pat =>
    if pat.isPrefixOf s then some 0
    else
      match s with
      | [] => none
      | _ :: rest => (findSubIdx rest pat).map (· + 1)

/-- Model of `is_page_number_line` in `src/markdown.rs`. -/
def is_page_number_line (trimmed : Str) : Bool :=
  if trimmed.isEmpty then false
  else if strLen trimmed ≤ 4 ∧ trimmed.all (·.isDigit) then true
  else
    let lower := strLower trimmed
    let pattern2 :=
      if startsWithStr lower "page".toList then
        let rest := strTrim (lower.drop 4)
        if rest = "of".toList ∨ startsWithStr rest "of ".toList then true
        else if (rest.head?.map (·.isDigit)).getD false then true
        else if rest.isEmpty ∨
            (splitWs rest).all fun w => w = "of".toList ∨ w.all (·.isDigit) then true
        else false
      else false
    if pattern2 then true
    else
      let pattern3 : Bool :=
        match findSubIdx trimmed " of ".toList with
        | some of_idx =>
          let before := strTrim (trimmed.take of_idx)
          let after := strTrim (trimmed.drop (of_idx + 4))
          before.all (·.isDigit) && after.all (·.isDigit) &&
            !before.isEmpty && !after.isEmpty
        | none => false
      if pattern3 then true
      else
        if 3 ≤ strLen trimmed ∧ trimmed.head? = some '-' ∧
            trimmed.getLast? = some '-' then
          let inner := strTrim (trimmed.drop 1).dropLast
          inner.all (·.isDigit) ∧ ¬inner.isEmpty
        else false

/-- Model of `remove_page_numbers` in `src/markdown.rs`: drop page-number
lines that sit isolated (next to blank lines or `---` breaks) or right before
a page break, keeping everything else. -/
def remove_page_numbers (text : Str) : Str :=
  let lines := strLines text
  let n := lines.length
  let kept := (lines.zip (List.range n)).filterMap fun p =>
    let line := p.1
    let i := p.2
    let trimmed := strTrim line
    if is_page_number_line trimmed then
      let lineAt := fun (j : Nat) => strTrim ((lines.get? j).getD [])
      let prev_is_break := 0 < i ∧ lineAt (i - 1) = "---".toList
      let next_is_break := i + 1 < n ∧ lineAt (i + 1) = "---".toList
      let prev_is_empty := 0 < i ∧ (lineAt (i - 1)).isEmpty
      let next_is_empty := i + 1 < n ∧ (lineAt (i + 1)).isEmpty
      let is_isolated := (prev_is_break ∨ prev_is_empty ∨ i = 0) ∧
        (next_is_break ∨ next_is_empty ∨ i + 1 = n)
      let before_break := i + 1 < n ∧
        (lineAt (i + 1) = "---".toList ∨
          (i + 2 < n ∧ (lineAt (i + 1)).isEmpty ∧ lineAt (i + 2) = "---".toList))
      if is_isolated ∨ before_break then none else some line
    else some line
  (kept.intersperse "\n".toList).flatten

/-- Character classes of the URL regex in `format_urls`: `[^\s<>\)\]]` for
the body and additionally no trailing `.`, `,`, `;`. -/
def urlBodyChar (c : Char) : Bool :=
  !(isWs c || c == '<' || c == '>' || c == ')' || c == ']')

def urlEndChar (c : Char) : Bool :=
  urlBodyChar c && !(c == '.' || c == ',' || c == ';')

/-- The longest prefix of `run` (length ≥ 2) whose last character may end a
URL, i.e. the greedy match length of `[^S]+[^S.,;]` against `run`. -/
def urlTrimEndRev : Str → Option Nat
  | [] => none
  | c :: rest =>
    if urlEndChar c then
      if 2 ≤ (c :: rest).length then some (c :: rest).length else none
    else urlTrimEndRev rest

def urlTrimEnd (run : Str) : Option Nat := urlTrimEndRev run.reverse

/-- Greedy URL match length at the head of `s`
(`https?://[^\s<>\)\]]+[^\s<>\)\]\.\,;]`). -/
def urlMatchLen (s : Str) : Option Nat :=
  let scheme_len :=
    if startsWithStr s "https://".toList then some 8
    else if startsWithStr s "http://".toList then some 7
    else none
  match scheme_len with
  | none => none
  | some sl =>
    let run := (s.drop sl).takeWhile urlBodyChar
    (urlTrimEnd run).map (sl + ·)

/-- Worker for `format_urls`: scans left to right, tracking the bracket
balance of the emitted prefix and its last two characters (the Rust code's
byte-boundary fixups are identities in this character model). -/
def formatUrlsGo : Nat → Str → Str → Nat → Nat → Str → Str
  | 0, done, rest, _, _, _ => done ++ rest
  | _, done, [], _, _, _ => done
  | fuel + 1, done, c :: cs, openBr, closeBr, lastTwo =>
    match urlMatchLen (c :: cs) with
    | some len =>
      let url := (c :: cs).take len
      let already_linked := lastTwo = "](".toList
      let inside_link_text := closeBr < openBr
      let openBr' := openBr + (url.filter (· = '[')).length
      let closeBr' := closeBr + (url.filter (· = ']')).length
      let rest' := (c :: cs).drop len
      if already_linked ∨ inside_link_text then
        formatUrlsGo fuel (done ++ url) rest' openBr' closeBr'
          ((done ++ url).reverse.take 2).reverse
      else
        let repl := "[".toList ++ url ++ "](".toList ++ url ++ ")".toList
        formatUrlsGo fuel (done ++ repl) rest' openBr' closeBr'
          ((done ++ repl).reverse.take 2).reverse
    | none =>
      let openBr' := if c = '[' then openBr + 1 else openBr
      let closeBr' := if c = ']' then closeBr + 1 else closeBr
      formatUrlsGo fuel (done ++ [c]) cs openBr' closeBr'
        ((done ++ [c]).reverse.take 2).reverse

/-- Model of `format_urls` in `src/markdown.rs`: wrap bare URLs as
`[url](url)` unless already inside a Markdown link. -/
def format_urls (text : Str) : Str :=
  formatUrlsGo text.length [] text 0 0 []

/-- One pass of `String::replace("\n\n\n", "\n\n")`. -/
def collapseOnce : Str → Str
  | '\n' :: '\n' :: '\n' :: rest => '\n' :: '\n' :: collapseOnce rest
  | c :: rest => c :: collapseOnce rest
  | [] => []

/-- The `while text.contains("\n\n\n")` replacement loop of
`clean_markdown`, on a length fuel (each pass shortens the string). -/
def collapseBlankLines : Nat → Str → Str
  | 0, s => s
  | fuel + 1, s =>
    if containsSub s "\n\n\n".toList then collapseBlankLines fuel (collapseOnce s)
    else s

/-- Model of `clean_markdown` in `src/markdown.rs`: optional hyphenation
repair, page-number removal and URL formatting, then blank-line collapse,
trim, and a final newline. -/
def clean_markdown (text : Str) (options : MarkdownOptions) : Str :=
  let text := if options.fix_hyphenation then fix_hyphenation text else text
  let text := if options.remove_page_numbers then remove_page_numbers text else text
  let text := if options.format_urls then format_urls text else text
  let text := collapseBlankLines text.length text
  strTrim text ++ "\n".toList

/-- Model of `is_footnote_row` in `src/tables.rs`. -/
def is_footnote_row (text : Str) : Bool :=
  let trimmed := strTrim text
  let pat1 :=
    if trimmed.head? = some '(' ∧ 2 ≤ strLen trimmed then
      let inside := trimmed.drop 1
      match findChar2Idx ')' ')' inside with
      | some close_idx => (inside.take close_idx).all (·.isDigit)
      | none => false
    else false
  if pat1 then true
  else
    let pat2 :=
      if 2 ≤ strLen trimmed then
        match findChar2Idx ')' ')' trimmed with
        | some paren_idx =>
          let num_part := trimmed.take paren_idx
          !num_part.isEmpty && num_part.all (·.isDigit)
        | none => false
      else false
    if pat2 then true
    else
      let lower := strLower trimmed
      startsWithStr lower "note:".toList || startsWithStr lower "notes:".toList

/-- Model of `clean_table_cells` in `src/tables.rs`: skip empty rows, pull
footnote rows aside, merge continuation rows into the previous row. -/
def clean_table_cells (cells : List (List Str)) : List (List Str) × List Str :=
  cells.foldl
    (fun acc row =>
      let cleaned := acc.1
      let footnotes := acc.2
      if row.all fun c => (strTrim c).isEmpty then acc
      else
        let first_cell := strTrim (row.headD [])
        if is_footnote_row first_cell then
          let parts := (row.map strTrim).filter fun c => !c.isEmpty
          (cleaned, footnotes ++ [(parts.intersperse [' ']).flatten])
        else
          let is_continuation := first_cell.isEmpty ∧
            (row.drop 1).any (fun c => !(strTrim c).isEmpty) ∧ ¬cleaned.isEmpty
          if is_continuation then
            match cleaned.getLast? with
            | some prev_row =>
              let merged := (prev_row.zip (List.range prev_row.length)).map fun p =>
                match row.get? p.2 with
                | some cell =>
                  let cell_text := strTrim cell
                  if ¬cell_text.isEmpty then
                    if ¬p.1.isEmpty then p.1 ++ [' '] ++ cell_text else p.1 ++ cell_text
                  else p.1
                | none => p.1
              (cleaned.dropLast ++ [merged], footnotes)
            | none => acc
          else (cleaned ++ [row.map strTrim], footnotes))
    ([], [])

/-- Space padding of `format!` with a width (pads to the right). -/
def padRight (s : Str) (width : Nat) : Str :=
  s ++ List.replicate (width - s.length) ' '

/-- Model of `table_to_markdown` in `src/tables.rs`: padded pipe table with a
separator after the header row and footnotes below. -/
def table_to_markdown (table : Table) : Str :=
  if table.cells.isEmpty ∨ (table.cells.headD []).isEmpty then []
  else
    let cleaned := clean_table_cells table.cells
    let cleaned_cells := cleaned.1
    let footnotes := cleaned.2
    if cleaned_cells.isEmpty then []
    else
      let num_cols := (cleaned_cells.headD []).length
      let col_widths := (List.range num_cols).map fun col =>
        Nat.max ((cleaned_cells.map fun row =>
          strLen ((row.get? col).getD [])).foldl Nat.max 0) 3
      let header_sep := "|".toList ++ (col_widths.map fun width =>
        " ".toList ++ List.replicate width '-' ++ " |".toList).flatten ++ "\n".toList
      let body := ((cleaned_cells.zip (List.range cleaned_cells.length)).map fun p =>
        let row_str := "|".toList ++ ((p.1.zip col_widths).map fun q =>
          " ".toList ++ padRight q.1 q.2 ++ " |".toList).flatten ++ "\n".toList
        if p.2 = 0 then row_str ++ header_sep else row_str).flatten
      let foot :=
        if ¬footnotes.isEmpty then
          "\n".toList ++ (footnotes.map fun f => f ++ "\n".toList).flatten
        else []
      body ++ foot

/-- Per-page pending tables/images: `(y, rendered_markdown)` lists keyed by
page, in insertion order. -/
abbrev PageMd := List (Nat × List (Q × Str))

/-- State of the emission loop of
`to_markdown_from_lines_with_tables_and_images`. -/
structure EmitState where
  output : Str
  current_page : Nat
  prev_y : Q
  in_list : Bool
  in_paragraph : Bool
  last_list_x : Option Q
  inserted_tables : List (Nat × Nat)
  inserted_images : List (Nat × Nat)

/-- Model of `f32::MAX` (any value above every coordinate in range). -/
def f32Max : Q := Q.ofInt (2 ^ 128)

/-- Flush the not-yet-inserted tables or images of a page (the page-break
branches of the emission loop), marking them inserted. -/
def flushPending (page : Nat) (entries : List (Q × Str))
    (output : Str) (in_paragraph : Bool) (inserted : List (Nat × Nat)) :
    Str × Bool × List (Nat × Nat) :=
  (entries.zip (List.range entries.length)).foldl
    (fun acc p =>
      let (output, in_paragraph, inserted) := acc
      if ¬inserted.contains (page, p.2) then
        let output := if in_paragraph then output ++ "\n\n".toList else output
        (output ++ "\n".toList ++ p.1.2 ++ "\n".toList, false, inserted ++ [(page, p.2)])
      else acc)
    (output, in_paragraph, inserted)

/-- Insert the pending tables or images whose Y position lies above the
current line (the before-line branches of the emission loop). -/
def insertAboveLine (page : Nat) (entries : List (Q × Str)) (line_y : Q)
    (output : Str) (in_paragraph : Bool) (inserted : List (Nat × Nat)) :
    Str × Bool × List (Nat × Nat) :=
  (entries.zip (List.range entries.length)).foldl
    (fun acc p =>
      let (output, in_paragraph, inserted) := acc
      if line_y < p.1.1 ∧ ¬inserted.contains (page, p.2) then
        let output := if in_paragraph then output ++ "\n\n".toList else output
        (output ++ "\n".toList ++ p.1.2 ++ "\n".toList, false, inserted ++ [(page, p.2)])
      else acc)
    (output, in_paragraph, inserted)

/-- The final flush of the emission loop (no insertion marking). -/
def flushFinal (page : Nat) (entries : List (Q × Str))
    (output : Str) (in_paragraph : Bool) (inserted : List (Nat × Nat)) :
    Str × Bool :=
  (entries.zip (List.range entries.length)).foldl
    (fun acc p =>
      let (output, in_paragraph) := acc
      if ¬inserted.contains (page, p.2) then
        let output := if in_paragraph then output ++ "\n\n".toList else output
        (output ++ "\n".toList ++ p.1.2 ++ "\n".toList, false)
      else acc)
    (output, in_paragraph)

/-- One line of the emission loop of
`to_markdown_from_lines_with_tables_and_images` (lines 292–490 of
`src/markdown.rs`). -/
def emitLine (options : MarkdownOptions) (base_size : Q) (heading_tiers : List Q)
    (para_threshold : Q) (page_tables page_images : PageMd)
    (st : EmitState) (line : TextLine) : EmitState :=
  -- page break: flush the previous page, then a page separator
  let st :=
    if line.page ≠ st.current_page then
      let st :=
        if 0 < st.current_page then
          let t := flushPending st.current_page
            ((page_tables.lookup st.current_page).getD []) st.output st.in_paragraph
            st.inserted_tables
          let i := flushPending st.current_page
            ((page_images.lookup st.current_page).getD []) t.1 t.2.1 st.inserted_images
          let output := i.1
          let in_paragraph := i.2.1
          let output := if in_paragraph then output ++ "\n\n".toList else output
          { st with
            output := output ++ "\n\n".toList, in_paragraph := false,
            inserted_tables := t.2.2, inserted_images := i.2.2 }
        else st
      { st with current_page := line.page, prev_y := f32Max }
    else st
  -- pending tables/images above this line
  let t := insertAboveLine st.current_page
    ((page_tables.lookup st.current_page).getD []) line.y st.output st.in_paragraph
    st.inserted_tables
  let i := insertAboveLine st.current_page
    ((page_images.lookup st.current_page).getD []) line.y t.1 t.2.1 st.inserted_images
  let st := { st with
    output := i.1, in_paragraph := i.2.1,
    inserted_tables := t.2.2, inserted_images := i.2.2 }
  -- paragraph break on a large Y gap
  let y_gap := st.prev_y - line.y
  let is_para_break := para_threshold < y_gap
  let st :=
    if is_para_break ∧ st.in_paragraph then
      { st with output := st.output ++ "\n\n".toList, in_paragraph := false }
    else st
  let st := { st with prev_y := line.y }
  let text := line.text_with_formatting options.detect_bold options.detect_italic
  let trimmed := strTrim text
  let plain_text := line.text
  let plain_trimmed := strTrim plain_text
  if trimmed.isEmpty then st
  else if is_caption_line plain_trimmed then
    let output := if st.in_paragraph then st.output ++ "\n\n".toList else st.output
    { st with output := output ++ trimmed ++ "\n\n".toList, in_paragraph := false }
  else
    -- headers by font size
    let header_level :=
      if options.detect_headers ∧ 3 < strLen plain_trimmed ∧
          (splitWs plain_trimmed).length ≤ 15 then
        let line_font_size := ((line.items.head?.map (·.font_size))).getD base_size
        detect_header_level line_font_size base_size heading_tiers
      else none
    match header_level with
    | some level =>
      let output := if st.in_paragraph then st.output ++ "\n\n".toList else st.output
      { st with
        output := output ++ List.replicate level '#' ++ [' '] ++ plain_trimmed ++
          "\n\n".toList,
        in_paragraph := false, in_list := false }
    | none =>
      if options.detect_lists ∧ is_list_item plain_trimmed then
        let output := if st.in_paragraph then st.output ++ "\n\n".toList else st.output
        { st with
          output := output ++ format_list_item trimmed ++ "\n".toList,
          in_paragraph := false, in_list := true,
          last_list_x := line.items.head?.map (·.x) }
      else
        let continuation :=
          if st.in_list then
            let line_x := line.items.head?.map (·.x)
            match st.last_list_x, line_x with
            | some list_x, some curr_x =>
              let x_ok := list_x - 5 ≤ curr_x ∧ curr_x ≤ list_x + 50
              let y_ok := y_gap < base_size * 7
              if x_ok ∧ y_ok ∧ ¬is_list_item plain_trimmed then true else false
            | _, _ => false
          else false
        if st.in_list ∧ continuation then
          let output :=
            if st.output.getLast? = some '\n' then st.output.dropLast ++ [' ']
            else st.output
          { st with output := output ++ trimmed ++ "\n".toList }
        else
          let st :=
            if st.in_list then { st with in_list := false, last_list_x := none }
            else st
          let is_mono := options.detect_code ∧
            line.items.any fun it => is_monospace_font it.font
          if is_mono then
            let output := if st.in_paragraph then st.output ++ "\n\n".toList else st.output
            { st with
              output := output ++ "```\n".toList ++ plain_trimmed ++ "\n```\n".toList,
              in_paragraph := false }
          else
            let output := if st.in_paragraph then st.output ++ [' '] else st.output
            { st with output := output ++ trimmed, in_paragraph := true }

/-- Model of `to_markdown_from_lines_with_tables_and_images` in
`src/markdown.rs`. -/
def to_markdown_from_lines_with_tables_and_images (ord : HmOrd)
    (lines : List TextLine) (options : MarkdownOptions)
    (page_tables page_images : PageMd) : Str :=
  if lines.isEmpty ∧ page_tables.isEmpty ∧ page_images.isEmpty then []
  else
    let font_stats := calculate_font_stats ord lines
    let base_size := options.base_font_size.getD font_stats
    let lines := merge_drop_caps lines base_size
    let heading_tiers := compute_heading_tiers lines base_size
    let lines := merge_heading_lines lines base_size heading_tiers
    let para_threshold := compute_paragraph_threshold lines base_size
    let final := lines.foldl
      (emitLine options base_size heading_tiers para_threshold page_tables page_images)
      ⟨[], 0, f32Max, false, false, none, [], []⟩
    let t := flushFinal final.current_page
      ((page_tables.lookup final.current_page).getD []) final.output final.in_paragraph
      final.inserted_tables
    let i := flushFinal final.current_page
      ((page_images.lookup final.current_page).getD []) t.1 t.2
      final.inserted_images
    let output := if i.2 then i.1 ++ "\n".toList else i.1
    clean_markdown output options

/-- Append an entry to a per-page list
(`map.entry(page).or_default().push(entry)`). -/
def pageMdPush (m : PageMd) (page : Nat) (entry : Q × Str) : PageMd :=
  if (m.lookup page).isSome then
    m.map fun p => if p.1 == page then (p.1, p.2 ++ [entry]) else p
  else m ++ [(page, [entry])]

/-- Model of `to_markdown_from_items` in `src/markdown.rs`: split off images
and links, detect tables per page (claiming their items), group the rest
into lines and emit. -/
def to_markdown_from_items (ord : HmOrd) (items : List TextItem)
    (options : MarkdownOptions) : Str :=
  if items.isEmpty then []
  else
    let images := items.filter fun item =>
      item.item_type = ItemType.image ∧ options.include_images
    -- collected as in the source, which never reads them again: Link items
    -- do not reach the line pipeline
    let _links := items.filter fun item =>
      (match item.item_type with | ItemType.link _ => true | _ => false) &&
        options.include_links
    let text_items := items.filter fun item => item.item_type = ItemType.text
    let font_stats := calculate_font_stats_from_items ord text_items
    let base_size := options.base_font_size.getD font_stats
    let page_images := images.foldl
      (fun m img =>
        let img_name :=
          if startsWithStr img.text "[Image: ".toList ∧
              (img.text.drop 8).getLast? = some ']' then
            (img.text.drop 8).dropLast
          else img.text
        pageMdPush m img.page
          (img.y, "![Image: ".toList ++ img_name ++ "](image)\n".toList))
      ([] : PageMd)
    let pages := dedupAdj (sortByStable (fun a b => a ≤ b) (text_items.map (·.page)))
    let detected := pages.foldl
      (fun acc page =>
        let (table_items, page_tables) := acc
        let page_items := text_items.filter fun i => i.page = page
        let tables := detect_tables ord.ordCounts page_items base_size
        tables.foldl
          (fun acc table =>
            let (table_items, page_tables) := acc
            let pageEnum := (text_items.zip (List.range text_items.length)).filter
              fun p => p.1.page = page
            let table_items := table.item_indices.foldl
              (fun table_items idx =>
                match (pageEnum.get? idx).map (·.2) with
                | some gi => table_items ++ [gi]
                | none => table_items)
              table_items
            let table_y := (table.rows.head?).getD 0
            let table_md := table_to_markdown table
            (table_items, pageMdPush page_tables page (table_y, table_md)))
          (table_items, page_tables))
      (([] : List Nat), ([] : PageMd))
    let table_items := detected.1
    let page_tables := detected.2
    let non_table_items := ((text_items.zip (List.range text_items.length)).filter
      fun p => ¬table_items.contains p.2).map (·.1)
    let lines := group_into_lines non_table_items
    to_markdown_from_lines_with_tables_and_images ord lines options page_tables page_images

/-! ## Concrete documents and item sets used by the claim theorems -/

/-- A text item at a position (concrete-example helper). -/
def mkTI (text : String) (x y fs : Q) (page : Nat) : TextItem :=
  ⟨text.toList, x, y, 0, fs, "F1".toList, fs, page, false, false, .text⟩

/-- Sortedness of a line's items by X ascending. -/
def itemsSortedByX (l : TextLine) : Prop :=
  l.items.Pairwise fun a b => a.x ≤ b.x

instance (l : TextLine) : Decidable (itemsSortedByX l) :=
  inferInstanceAs (Decidable (l.items.Pairwise fun a b : TextItem => a.x ≤ b.x))

/-- An entry list has a unique maximal count: some entry is maximal and every
entry attaining the maximum equals it. -/
def uniqueMaxEntry {α : Type} (l : List (α × Nat)) : Prop :=
  ∃ e ∈ l, (∀ e' ∈ l, e'.2 ≤ e.2) ∧ ∀ e' ∈ l, e'.2 = e.2 → e' = e

instance {α : Type} [DecidableEq α] (l : List (α × Nat)) : Decidable (uniqueMaxEntry l) :=
  inferInstanceAs (Decidable (∃ e ∈ l, (∀ e' ∈ l, e'.2 ≤ e.2) ∧ ∀ e' ∈ l, e'.2 = e.2 → e' = e))

/-- Empty CMap collection. -/
def fcEmpty : FontCMaps := ⟨[], [], []⟩

/-- C1: page 1 holds one `Tj` showing `A` (byte 0x41); identity matrices
except a `Td` translation to (100, 700). -/
def c1ops : List Op :=
  [⟨"BT".toList, []⟩, ⟨"Tf".toList, [.name "F0".toList, .integer 12]⟩,
   ⟨"Td".toList, [.integer 100, .integer 700]⟩, ⟨"Tj".toList, [.string [0x41]]⟩,
   ⟨"ET".toList, []⟩]

def c1page1 : Page := ⟨1, [], [], [], [], .ok c1ops, []⟩

/-- C1: page 2's content stream fails to fetch/tokenize. -/
def c1page2 : Page := ⟨2, [], [], [], [], .error "bad content stream".toList, []⟩

def c1doc : Document := ⟨[c1page1, c1page2], []⟩

/-- The single item page 1 produces. -/
def c1item : TextItem :=
  ⟨"A".toList, 100, 700, 0, 12, "F0".toList, 12, 1, false, false, .text⟩

/-- C2: a Form XObject (object id 20) whose stream shows `NESTED`. -/
def c2form2 : FormX :=
  ⟨.ok [⟨"BT".toList, []⟩, ⟨"Tf".toList, [.name "H0".toList, .integer 12]⟩,
    ⟨"Td".toList, [.integer 1, .integer 2]⟩,
    ⟨"Tj".toList, [.string ("NESTED".toList.map Char.toNat)]⟩, ⟨"ET".toList, []⟩],
   [], [], []⟩

/-- C2: a Form XObject (object id 10) showing `A` and then invoking the
nested form `X2` with a `Do` operator (in a real document, its `/Resources`
`/XObject` entry `X2` references object 20). -/
def c2form1 : FormX :=
  ⟨.ok [⟨"BT".toList, []⟩, ⟨"Tf".toList, [.name "G0".toList, .integer 12]⟩,
    ⟨"Td".toList, [.integer 5, .integer 7]⟩, ⟨"Tj".toList, [.string [0x41]]⟩,
    ⟨"ET".toList, []⟩, ⟨"Do".toList, [.name "X2".toList]⟩],
   [], [], []⟩

/-- C2: the page sets the CTM to a (10, 20) translation and invokes form
`X1`. -/
def c2page : Page :=
  ⟨1, [], [], [], [("X1".toList, .form 10)],
   .ok [⟨"cm".toList,
      [.integer 1, .integer 0, .integer 0, .integer 1, .integer 10, .integer 20]⟩,
    ⟨"Do".toList, [.name "X1".toList]⟩],
   []⟩

def c2doc : Document := ⟨[c2page], [(10, c2form1), (20, c2form2)]⟩

/-- C2 (amended, resources part): the page's own font table decodes `G0`
differently from the form's; the emitted text shows the form's table wins.
The page font would decode every string as `PAGE`; the form has no tables,
so its `Tj` falls through to Latin-1. -/
def c2pageR : Page :=
  ⟨1, [("G0".toList, ⟨none, none, some fun _ => some "PAGE".toList⟩)], [], [],
   [("X1".toList, .form 10)],
   .ok [⟨"cm".toList,
      [.integer 1, .integer 0, .integer 0, .integer 1, .integer 10, .integer 20]⟩,
    ⟨"Do".toList, [.name "X1".toList]⟩],
   []⟩

def c2docR : Document := ⟨[c2pageR], [(10, c2form1), (20, c2form2)]⟩

/-- C3: a font whose built-in encoding decodes successfully to the empty
string (e.g. an encoding mapping no byte of the input). -/
def c3fonts : List (Str × FontDict) :=
  [("F0".toList, ⟨none, none, some fun _ => some []⟩)]

/-- C4/C5/C8/C10 item sets. -/
def c4Items : List TextItem :=
  [mkTI "About Glenair" 100 700 20 1, mkTI "Interconnect" 72 670 20 1,
   mkTI "body one two three" 100 640 10 1, mkTI "more body text here" 100 625 10 1,
   mkTI "and final body line" 100 610 10 1]

/-- The heading-merge stage exactly as the emitter invokes it on `c4Items`:
grouped lines, drop caps merged, document tiers computed, then
`merge_heading_lines`. -/
def c4Merged : List TextLine :=
  let lines := group_into_lines c4Items
  let base := calculate_font_stats hmOrdId lines
  let lines := merge_drop_caps lines base
  let tiers := compute_heading_tiers lines base
  merge_heading_lines lines base tiers

def c5Items : List TextItem :=
  [mkTI "Title Words Here" 100 700 15 1,
   mkTI "body text content here" 100 680 10 1]

def c8Items : List TextItem :=
  [mkTI "1. Introduction" 100 700 20 1,
   mkTI "body one two three" 100 685 10 1,
   mkTI "more body text here" 100 670 10 1,
   mkTI "and final body line" 100 655 10 1]

/-- C6: the 4×4 grid with column-aligned X positions and numeric data rows
(small font 8 against body size 10). -/
def gridItems : List TextItem :=
  [mkTI "Subject" 100 500 8 1, mkTI "Q1" 200 500 8 1,
   mkTI "Q2" 280 500 8 1, mkTI "Q3" 360 500 8 1,
   mkTI "Math" 100 480 8 1, mkTI "9.0" 200 480 8 1,
   mkTI "8.5" 280 480 8 1, mkTI "9.5" 360 480 8 1,
   mkTI "Science" 100 460 8 1, mkTI "8.0" 200 460 8 1,
   mkTI "9.0" 280 460 8 1, mkTI "8.5" 360 460 8 1,
   mkTI "English" 100 440 8 1, mkTI "9.5" 200 440 8 1,
   mkTI "9.0" 280 440 8 1, mkTI "9.5" 360 440 8 1]

/-- C6: the same number of items (16) as wrapped single-column prose at body
size. -/
def proseItems : List TextItem :=
  [mkTI "This is a paragraph of text that spans the full width" 72 500 10 1,
   mkTI "of the page and should not be detected as a table." 72 485 10 1,
   mkTI "It continues for several lines with normal body text" 72 470 10 1,
   mkTI "that is left-aligned and has no columnar structure." 72 455 10 1,
   mkTI "The paragraph keeps going with more content here." 72 440 10 1,
   mkTI "And it has even more text on this line as well." 72 425 10 1,
   mkTI "Finally the paragraph concludes with this last line." 72 410 10 1,
   mkTI "One more line to have enough items for detection." 72 395 10 1,
   mkTI "And another line of plain paragraph text content." 72 380 10 1,
   mkTI "Last line of the paragraph ends here for the test." 72 365 10 1,
   mkTI "Eleventh line of plain paragraph body text here." 72 350 10 1,
   mkTI "Twelfth line of plain paragraph body text here." 72 335 10 1,
   mkTI "Thirteenth line of plain paragraph body text." 72 320 10 1,
   mkTI "Fourteenth line of plain paragraph body text." 72 305 10 1,
   mkTI "Fifteenth line of plain paragraph body text." 72 290 10 1,
   mkTI "Sixteenth line of plain paragraph body text." 72 275 10 1]

/-- C9: the spec's example CMap. -/
def c9cmap : ToUnicodeCMap :=
  ⟨[(3, " ".toList), (0x24, "A".toList), (0x25, "B".toList)], []⟩

/-- C9: a CMap whose only range maps into the surrogate block. -/
def c9bad : ToUnicodeCMap := ⟨[], [(1, 5, 0xD800)]⟩

/-- C7: four lines whose first items have sizes 24, 18, 15 and 12. -/
def c7Lines : List TextLine :=
  [⟨[mkTI "Chapter" 72 700 24 1], 700, 1⟩,
   ⟨[mkTI "Section" 72 650 18 1], 650, 1⟩,
   ⟨[mkTI "Subsection" 72 600 15 1], 600, 1⟩,
   ⟨[mkTI "Body" 72 550 12 1], 550, 1⟩]

/-! ## Theorems.  First, transfer lemmas for `Q`. -/

namespace Q

theorem den_cast_pos (a : Q) : (0 : ℚ) < (a.den : ℚ) := by exact_mod_cast a.dpos

theorem den_cast_ne (a : Q) : ((a.den : ℚ)) ≠ 0 := (den_cast_pos a).ne'

theorem cast_div_div_eq (n : Int) (d k : Nat) (hk : 0 < k) (hn : (k : ℤ) ∣ n)
    (hd : k ∣ d) : ((n / (k : ℤ) : ℤ) : ℚ) / ((d / k : ℕ) : ℚ) = (n : ℚ) / (d : ℚ) := by
  obtain ⟨n', rfl⟩ := hn
  obtain ⟨d', rfl⟩ := hd
  rw [Int.mul_ediv_cancel_left _ (by exact_mod_cast hk.ne'), Nat.mul_div_cancel_left _ hk]
  push_cast
  rw [mul_div_mul_left _ _ (by exact_mod_cast hk.ne' : ((k : ℚ)) ≠ 0)]

theorem toRat_mkn (n : Int) (d : Nat) (h : 0 < d) :
    (mkn n d h).toRat = (n : ℚ) / (d : ℚ) := by
  have hg : 0 < n.natAbs.gcd d := Nat.gcd_pos_of_pos_right _ h
  have hgn : ((n.natAbs.gcd d : ℕ) : ℤ) ∣ n :=
    dvd_trans (Int.natCast_dvd_natCast.mpr (Nat.gcd_dvd_left _ _)) (Int.natAbs_dvd.mpr dvd_rfl)
  exact cast_div_div_eq n d _ hg hgn (Nat.gcd_dvd_right _ _)

theorem toRat_add (a b : Q) : (a + b).toRat = a.toRat + b.toRat := by
  show (add a b).toRat = _
  unfold add
  rw [toRat_mkn, toRat, toRat]
  rw [div_add_div _ _ (den_cast_ne a) (den_cast_ne b)]
  push_cast
  ring_nf

theorem toRat_neg (a : Q) : (-a).toRat = -a.toRat := by
  show (neg a).toRat = _
  unfold neg toRat
  push_cast
  ring

theorem toRat_sub (a b : Q) : (a - b).toRat = a.toRat - b.toRat := by
  show (sub a b).toRat = _
  unfold sub
  rw [show add a (neg b) = a + (-b) from rfl, toRat_add, toRat_neg]
  ring

theorem toRat_mul (a b : Q) : (a * b).toRat = a.toRat * b.toRat := by
  show (mul a b).toRat = _
  unfold mul
  rw [toRat_mkn, toRat, toRat]
  push_cast
  rw [div_mul_div_comm]

theorem toRat_abs (a : Q) : (abs a).toRat = |a.toRat| := by
  unfold abs toRat
  rw [abs_div, abs_of_pos (den_cast_pos a)]
  push_cast
  rfl

theorem le_iff (a b : Q) : a ≤ b ↔ a.toRat ≤ b.toRat := by
  show a.num * b.den ≤ b.num * a.den ↔ _
  rw [toRat, toRat, div_le_div_iff (den_cast_pos a) (den_cast_pos b)]
  exact_mod_cast Iff.rfl

theorem lt_iff (a b : Q) : a < b ↔ a.toRat < b.toRat := by
  show a.num * b.den < b.num * a.den ↔ _
  rw [toRat, toRat, div_lt_div_iff (den_cast_pos a) (den_cast_pos b)]
  exact_mod_cast Iff.rfl

theorem toRat_div (a b : Q) (hb : b.num ≠ 0) : (a / b).toRat = a.toRat / b.toRat := by
  show (div a b).toRat = _
  unfold div
  rw [dif_neg hb, toRat_mkn, toRat, toRat]
  have hbq : ((b.num : ℚ)) ≠ 0 := Int.cast_ne_zero.mpr hb
  have hda := den_cast_ne a
  have hdb := den_cast_ne b
  rcases lt_trichotomy b.num 0 with hneg | hzero | hpos
  · have h1 : ((b.num : ℚ)) < 0 := by exact_mod_cast hneg
    rw [Int.sign_eq_neg_one_of_neg hneg]
    push_cast [Int.cast_natAbs]
    rw [abs_of_neg h1]
    field_simp
  · exact absurd hzero hb
  · have h1 : (0 : ℚ) < ((b.num : ℚ)) := by exact_mod_cast hpos
    rw [Int.sign_eq_one_of_pos hpos]
    push_cast [Int.cast_natAbs]
    rw [abs_of_pos h1]
    field_simp

theorem toRat_ofInt (n : Int) : (ofInt n).toRat = (n : ℚ) := by
  unfold ofInt toRat
  norm_num

theorem toRat_ofNat (n : Nat) : (OfNat.ofNat n : Q).toRat = (n : ℚ) := toRat_ofInt n

theorem le_total_q (a b : Q) : a ≤ b ∨ b ≤ a := by
  rw [le_iff, le_iff]; exact le_total _ _

theorem le_trans_q (a b c : Q) (h1 : a ≤ b) (h2 : b ≤ c) : a ≤ c := by
  rw [le_iff] at h1 h2 ⊢; exact le_trans h1 h2

theorem le_of_not_le_q (a b : Q) (h : ¬ a ≤ b) : b ≤ a := by
  rw [le_iff] at h ⊢; exact le_of_not_le h

end Q

/-! ## Sorting and membership infrastructure -/

theorem mem_insertSorted {α : Type} (le : α → α → Bool) (x : α) (l : List α) (a : α) :
    a ∈ insertSorted le x l ↔ a = x ∨ a ∈ l := by
  induction l with
  | nil => simp [insertSorted]
  | cons y ys ih =>
    simp only [insertSorted]
    split
    · simp only [List.mem_cons, ih]; tauto
    · simp only [List.mem_cons]

theorem mem_sortByStable {α : Type} (le : α → α → Bool) (l : List α) (a : α) :
    a ∈ sortByStable le l ↔ a ∈ l := by
  induction l with
  | nil => simp [sortByStable]
  | cons x xs ih => simp only [sortByStable, mem_insertSorted, ih, List.mem_cons]

theorem pairwise_insertSorted {α : Type} (le : α → α → Bool) (R : α → α → Prop)
    (hle : ∀ a b, le a b = true → R a b) (htot : ∀ a b, le a b = false → R b a)
    (htrans : ∀ a b c, R a b → R b c → R a c) (x : α) (l : List α)
    (h : l.Pairwise R) : (insertSorted le x l).Pairwise R := by
  induction l with
  | nil => simp [insertSorted]
  | cons y ys ih =>
    rcases List.pairwise_cons.mp h with ⟨hy, hys⟩
    simp only [insertSorted]
    rcases Bool.eq_false_or_eq_true (le y x) with hxy | hxy
    · rw [if_pos hxy]
      refine List.pairwise_cons.mpr ⟨?_, ih hys⟩
      intro b hb
      rcases (mem_insertSorted le x ys b).mp hb with rfl | hb
      · exact hle y b hxy
      · exact hy b hb
    · rw [if_neg (by simp [hxy])]
      refine List.pairwise_cons.mpr ⟨?_, h⟩
      intro b hb
      rcases List.mem_cons.mp hb with rfl | hb
      · exact htot _ _ hxy
      · exact htrans x y b (htot y x hxy) (hy b hb)


theorem pairwise_sortByStable {α : Type} (le : α → α → Bool) (R : α → α → Prop)
    (hle : ∀ a b, le a b = true → R a b) (htot : ∀ a b, le a b = false → R b a)
    (htrans : ∀ a b c, R a b → R b c → R a c) (l : List α) :
    (sortByStable le l).Pairwise R := by
  induction l with
  | nil => simp [sortByStable]
  | cons x xs ih =>
    exact pairwise_insertSorted le R hle htot htrans x _ ih

theorem mem_foldl_append {α β : Type} (g : β → List α) (xs : List β) (acc : List α)
    (a : α) (h : a ∈ xs.foldl (fun acc x => acc ++ g x) acc) :
    a ∈ acc ∨ ∃ x ∈ xs, a ∈ g x := by
  induction xs generalizing acc with
  | nil => exact Or.inl h
  | cons x xs ih =>
    rcases ih (acc ++ g x) h with hacc | ⟨y, hy, ha⟩
    · rcases List.mem_append.mp hacc with h1 | h2
      · exact Or.inl h1
      · exact Or.inr ⟨x, List.mem_cons_self x xs, h2⟩
    · exact Or.inr ⟨y, List.mem_cons_of_mem x hy, ha⟩

theorem gsc_step_mem (P : TextItem → Prop) (acc : List TextLine) (x : TextItem)
    (hacc : ∀ l ∈ acc, ∀ it ∈ l.items, P it) (hx : P x) :
    ∀ l ∈ (if (match acc.getLast? with
        | some last_line => shouldMergeLine last_line x
        | none => false) then
        match acc.getLast? with
        | some last_line =>
          acc.dropLast ++ [{ last_line with items := last_line.items ++ [x] }]
        | none => acc
      else acc ++ [(⟨[x], x.y, x.page⟩ : TextLine)]),
      ∀ it ∈ l.items, P it := by
  rcases hg : acc.getLast? with _ | last
  · intro l hl it hit
    rw [if_neg (by simp)] at hl
    rcases List.mem_append.mp hl with h1 | h2
    · exact hacc l h1 it hit
    · rcases List.mem_singleton.mp h2 with rfl
      rcases List.mem_singleton.mp hit with rfl
      exact hx
  · intro l hl it hit
    by_cases hm : shouldMergeLine last x = true
    · rw [if_pos hm] at hl
      rcases List.mem_append.mp hl with h1 | h2
      · exact hacc l ((List.dropLast_prefix acc).subset h1) it hit
      · rcases List.mem_singleton.mp h2 with rfl
        rcases List.mem_append.mp hit with h3 | h4
        · exact hacc last (List.mem_of_mem_getLast? hg) it h3
        · rcases List.mem_singleton.mp h4 with rfl
          exact hx
    · rw [if_neg hm] at hl
      rcases List.mem_append.mp hl with h1 | h2
      · exact hacc l h1 it hit
      · rcases List.mem_singleton.mp h2 with rfl
        rcases List.mem_singleton.mp hit with rfl
        exact hx

theorem gsc_fold_mem (P : TextItem → Prop) (xs : List TextItem) (acc : List TextLine)
    (hacc : ∀ l ∈ acc, ∀ it ∈ l.items, P it) (hxs : ∀ it ∈ xs, P it) :
    ∀ l ∈ xs.foldl
      (fun lines item =>
        let merge := match lines.getLast? with
          | some last_line => shouldMergeLine last_line item
          | none => false
        if merge then
          match lines.getLast? with
          | some last_line =>
            lines.dropLast ++ [{ last_line with items := last_line.items ++ [item] }]
          | none => lines
        else lines ++ [⟨[item], item.y, item.page⟩]) acc,
      ∀ it ∈ l.items, P it := by
  induction xs generalizing acc with
  | nil => exact hacc
  | cons x xs ih =>
    exact ih _ (gsc_step_mem P acc x hacc (hxs x (List.mem_cons_self x xs)))
      (fun it hit => hxs it (List.mem_cons_of_mem x hit))

theorem mem_preSorted (items : List TextItem) (it : TextItem)
    (h : it ∈ (if should_use_y_sorting items then
        sortByStable
          (fun a b => b.y < a.y ∨ (¬b.y < a.y ∧ ¬a.y < b.y ∧ a.x ≤ b.x)) items
      else items)) : it ∈ items := by
  split at h
  · exact (mem_sortByStable _ _ _).mp h
  · exact h

theorem group_single_column_lines (items : List TextItem) :
    ∀ l ∈ group_single_column items, itemsSortedByX l ∧ ∀ it ∈ l.items, it ∈ items := by
  intro l hl
  rw [group_single_column] at hl
  split at hl
  · simp at hl
  · simp only [] at hl
    rcases List.mem_map.mp hl with ⟨line, hline, rfl⟩
    constructor
    · exact pairwise_sortByStable (fun a b : TextItem => decide (a.x ≤ b.x))
        (fun a b : TextItem => a.x ≤ b.x)
        (fun a b h => of_decide_eq_true h)
        (fun a b h => Q.le_of_not_le_q _ _ (of_decide_eq_false h))
        (fun a b c h1 h2 => Q.le_trans_q _ _ _ h1 h2) line.items
    · intro it hit
      have hit' : it ∈ line.items := (mem_sortByStable _ _ _).mp hit
      exact gsc_fold_mem (fun it => it ∈ items) _ [] (by simp)
        (fun i hi => mem_preSorted items i hi) line hline it hit'

theorem mem_mergeSpanningGo (fuel : Nat) :
    ∀ (spans cols : List TextLine) (l : TextLine),
    l ∈ mergeSpanningGo fuel spans cols → l ∈ spans ∨ l ∈ cols := by
  induction fuel with
  | zero =>
    intro spans cols l h
    simp only [mergeSpanningGo] at h
    exact List.mem_append.mp h
  | succ fuel ih =>
    intro spans cols l h
    rcases spans with _ | ⟨span, spans⟩
    · simp only [mergeSpanningGo] at h
      exact Or.inr h
    · rcases cols with _ | ⟨col, cols⟩
      · simp only [mergeSpanningGo] at h
        exact Or.inl h
      · rw [show mergeSpanningGo (fuel + 1) (span :: spans) (col :: cols) =
          if col.y ≤ span.y then span :: mergeSpanningGo fuel spans (col :: cols)
          else col :: mergeSpanningGo fuel (span :: spans) cols from rfl] at h
        split at h
        · rcases List.mem_cons.mp h with rfl | h2
          · exact Or.inl (List.mem_cons_self _ _)
          · rcases ih _ _ _ h2 with h3 | h4
            · exact Or.inl (List.mem_cons_of_mem _ h3)
            · exact Or.inr h4
        · rcases List.mem_cons.mp h with rfl | h2
          · exact Or.inr (List.mem_cons_self _ _)
          · rcases ih _ _ _ h2 with h3 | h4
            · exact Or.inl h3
            · exact Or.inr (List.mem_cons_of_mem _ h4)

theorem groupPage_lines (pitems : List TextItem) (page : Nat) :
    ∀ l ∈ groupPage pitems page, itemsSortedByX l ∧ ∀ it ∈ l.items, it ∈ pitems := by
  intro l hl
  rw [groupPage] at hl
  simp only [] at hl
  split at hl
  · exact group_single_column_lines pitems l hl
  · rw [mergeSpanning] at hl
    rcases mem_mergeSpanningGo _ _ _ _ hl with hsp | hcol
    · have hsp' := (mem_sortByStable _ _ _).mp hsp
      have hthis := group_single_column_lines _ l hsp'
      exact ⟨hthis.1, fun it hit => List.filter_subset' _ (hthis.2 it hit)⟩
    · rcases mem_foldl_append _ _ _ _ hcol with h0 | ⟨column, _, hc⟩
      · simp at h0
      · have hthis := group_single_column_lines _ l hc
        refine ⟨hthis.1, fun it hit => ?_⟩
        exact List.filter_subset' _ (List.filter_subset' _ (hthis.2 it hit))

theorem group_into_lines_lines (items : List TextItem) :
    ∀ l ∈ group_into_lines items, itemsSortedByX l ∧
      ∀ it ∈ l.items, it ∈ items ∧ is_page_number it = false := by
  intro l hl
  rw [group_into_lines] at hl
  split at hl
  · simp at hl
  · simp only [] at hl
    rcases mem_foldl_append _ _ _ _ hl with h0 | ⟨page, _, hpg⟩
    · simp at h0
    · have hthis := groupPage_lines _ _ l hpg
      refine ⟨hthis.1, fun it hit => ?_⟩
      have h2 := List.mem_filter.mp (List.filter_subset' _ (hthis.2 it hit))
      exact ⟨h2.1, by simpa using h2.2⟩

theorem mdc_step_sorted (base_size : Q) (acc : List TextLine) (line : TextLine)
    (hacc : ∀ l ∈ acc, itemsSortedByX l) (hline : itemsSortedByX line) :
    ∀ l ∈ (let trimmed := strTrim line.text
      let is_drop_cap := strLen trimmed ≤ 2 ∧
        base_size * 2.5 ≤ ((line.items.head?.map (·.font_size)).getD 0) ∧
        (trimmed.head?.map Char.isUpper).getD false
      if is_drop_cap then
        let drop_char := trimmed.headD ' '
        match findDropTarget line.page acc with
        | some idx =>
          match acc.get? idx with
          | some target =>
            let target' :=
              match target.items with
              | first :: restItems =>
                { target with
                  items := { first with text := drop_char :: strTrim first.text } :: restItems }
              | [] => target
            acc.set idx target'
          | none => acc
        | none => acc
      else acc ++ [line]), itemsSortedByX l := by
  intro l hl
  simp only [] at hl
  split at hl
  · rcases hf : findDropTarget line.page acc with _ | idx
    · rw [hf] at hl
      exact hacc l hl
    · rw [hf] at hl
      simp only [] at hl
      rcases hg : acc.get? idx with _ | target
      · rw [hg] at hl
        exact hacc l hl
      · rw [hg] at hl
        simp only [] at hl
        have htarget : itemsSortedByX target := hacc target (List.get?_mem hg)
        rcases List.mem_or_eq_of_mem_set hl with h1 | rfl
        · exact hacc l h1
        · have h1 : target.items.Pairwise (fun a b : TextItem => a.x ≤ b.x) := htarget
          rcases htgt : target.items with _ | ⟨first, restItems⟩
          · exact htarget
          · rw [htgt] at h1
            rcases List.pairwise_cons.mp h1 with ⟨hfirst, hrest⟩
            exact List.pairwise_cons.mpr ⟨fun b hb => hfirst b hb, hrest⟩
  · rcases List.mem_append.mp hl with h1 | h2
    · exact hacc l h1
    · rcases List.mem_singleton.mp h2 with rfl
      exact hline

theorem mdc_fold_sorted (base_size : Q) (xs : List TextLine) (acc : List TextLine)
    (hacc : ∀ l ∈ acc, itemsSortedByX l) (hxs : ∀ l ∈ xs, itemsSortedByX l) :
    ∀ l ∈ xs.foldl
      (fun result line =>
        let trimmed := strTrim line.text
        let is_drop_cap := strLen trimmed ≤ 2 ∧
          base_size * 2.5 ≤ ((line.items.head?.map (·.font_size)).getD 0) ∧
          (trimmed.head?.map Char.isUpper).getD false
        if is_drop_cap then
          let drop_char := trimmed.headD ' '
          match findDropTarget line.page result with
          | some idx =>
            match result.get? idx with
            | some target =>
              let target' :=
                match target.items with
                | first :: restItems =>
                  { target with
                    items := { first with text := drop_char :: strTrim first.text } :: restItems }
                | [] => target
              result.set idx target'
            | none => result
          | none => result
        else result ++ [line]) acc, itemsSortedByX l := by
  induction xs generalizing acc with
  | nil => exact hacc
  | cons x xs ih =>
    exact ih _ (mdc_step_sorted base_size acc x hacc (hxs x (List.mem_cons_self x xs)))
      (fun l hl => hxs l (List.mem_cons_of_mem x hl))

theorem merge_drop_caps_sorted (lines : List TextLine) (base_size : Q)
    (h : ∀ l ∈ lines, itemsSortedByX l) :
    ∀ l ∈ merge_drop_caps lines base_size, itemsSortedByX l := by
  intro l hl
  rw [merge_drop_caps] at hl
  exact mdc_fold_sorted base_size lines [] (by simp) h l hl

set_option maxRecDepth 200000

/-! ## Claim C4 -/

/-- C4, counterexample: running the pipeline's own heading-merge stage
(`group_into_lines`, then `merge_drop_caps`, `compute_heading_tiers` and
`merge_heading_lines` with the emitter's arguments) on `c4Items` produces a
first line whose items sit at x = 100 then x = 72: a `TextLine` produced by
the pipeline whose items are NOT sorted by x ascending.  The spec's
invariant fails for lines built by heading-continuation merging. -/
theorem C4_counterexample :
    c4Merged.length = 4 ∧ ¬ itemsSortedByX (c4Merged.headD ⟨[], 0, 0⟩) := by
  exact ⟨by decide, by decide⟩

/-- C4 (amended): every line produced by `group_into_lines` has its items
sorted by x ascending, and `merge_drop_caps` preserves the property (it only
rewrites the text of a line's first item); heading-continuation merging
(`merge_heading_lines`), however, appends the continuation's items after the
previous line's items in reading order and can break the invariant, as the
counterexample shows. -/
theorem C4_amended :
    (∀ (items : List TextItem), ∀ l ∈ group_into_lines items, itemsSortedByX l) ∧
    (∀ (lines : List TextLine) (base : Q), (∀ l ∈ lines, itemsSortedByX l) →
      ∀ l ∈ merge_drop_caps lines base, itemsSortedByX l) := by
  constructor
  · exact fun items l hl => (group_into_lines_lines items l hl).1
  · exact merge_drop_caps_sorted

/-- C4, witness: the amended theorem applied to a concrete one-item page. -/
theorem C4_amended_witness :
    itemsSortedByX ⟨[mkTI "Hello" 100 700 12 1], 700, 1⟩ :=
  C4_amended.1 [mkTI "Hello" 100 700 12 1]
    ⟨[mkTI "Hello" 100 700 12 1], 700, 1⟩ (by decide)

/-! ## Claim C10 -/

/-- C10: line grouping drops page-number-shaped items (1–4 digit trimmed
text at y > 800 or y < 100) unconditionally: `group_into_lines` takes no
options at all, and no surviving line item is page-number-shaped.  The
`remove_page_numbers` option gates only the text-level `clean_markdown`
pass: with the option off the digit line survives `clean_markdown`, with the
default (on) it is removed.  A digit item at y = 850 is dropped during
grouping either way. -/
theorem C10 :
    (∀ (items : List TextItem), ∀ l ∈ group_into_lines items,
      ∀ it ∈ l.items, is_page_number it = false) ∧
    group_into_lines [mkTI "7" 100 850 10 1, mkTI "Hello" 100 700 12 1] =
      [⟨[mkTI "Hello" 100 700 12 1], 700, 1⟩] ∧
    containsSub (clean_markdown "a\n\n7\n\nb".toList
      { MarkdownOptions.default with remove_page_numbers := false }) "7".toList = true ∧
    containsSub (clean_markdown "a\n\n7\n\nb".toList MarkdownOptions.default)
      "7".toList = false := by
  refine ⟨?_, by decide, by decide, by decide⟩
  exact fun items l hl it hit => ((group_into_lines_lines items l hl).2 it hit).2

/-- C10, witness: the universally quantified part applied to a concrete
item list. -/
theorem C10_witness :
    is_page_number (mkTI "World" 100 700 12 1) = false :=
  C10.1 [mkTI "World" 100 700 12 1] ⟨[mkTI "World" 100 700 12 1], 700, 1⟩
    (by decide) (mkTI "World" 100 700 12 1) (by decide)

/-! ## Claim C1 -/

theorem extractPagesGo_isOk (doc : Document) (fc : FontCMaps) (ps : List Page) :
    (extractPagesGo doc fc ps).isOk = ps.all fun p => p.content.isOk := by
  induction ps with
  | nil => rfl
  | cons p ps ih =>
    have hstep : extractPagesGo doc fc (p :: ps) =
        (extract_page_text_items doc p fc).bind fun items =>
        (extractPagesGo doc fc ps).bind fun rest =>
        .ok (items ++ extract_page_links p ++ rest) := rfl
    rw [hstep, extract_page_text_items]
    rcases hc : p.content with e | content
    · simp [Except.bind, Except.isOk, Except.toBool, List.all_cons, hc]
    · rcases hY : extractPagesGo doc fc ps with e2 | rest
      · rw [hY] at ih
        simp only [Except.isOk, Except.toBool] at ih
        simp only [hc, hY, Except.bind, Except.isOk, Except.toBool, List.all_cons,
          Bool.true_and, ← ih]
      · rw [hY] at ih
        simp only [Except.isOk, Except.toBool] at ih
        simp only [hc, hY, Except.bind, Except.isOk, Except.toBool, List.all_cons,
          Bool.true_and, ← ih]

/-- C1, counterexample: `c1doc` opens (it is a well-formed two-page
document), its page 1 alone yields one item, but page 2's content stream
fails to fetch/tokenize and the whole `extract_positioned_text_from_doc`
call returns `PdfError::Parse` — no partial result from page 1 survives.
A per-page content fetch/tokenize failure is therefore fatal below
document-open, contradicting the claim. -/
theorem C1_counterexample :
    extract_positioned_text_from_doc c1doc fcEmpty =
      .error (.parse "bad content stream".toList) ∧
    extract_page_text_items c1doc c1page1 fcEmpty = .ok [c1item] ∧
    c1doc.pages = [c1page1, c1page2] :=
  ⟨by decide, by decide, rfl⟩

/-- C1 (amended): once a page's content stream is fetched and tokenized,
interpretation is total — operator-level problems no-op, and the page
yields all its items (`extract_page_text_items` cannot fail below
tokenization).  But the whole call succeeds iff EVERY page's content
fetch/decode succeeds: a single page's failure propagates as
`PdfError::Parse` and discards all other pages' items, so per-page
content fetch/tokenize failures are fatal too, not only document-open
failure. -/
theorem C1_amended (doc : Document) (fc : FontCMaps) :
    ((extract_positioned_text_from_doc doc fc).isOk =
      doc.pages.all fun p => p.content.isOk) ∧
    ∀ (p : Page) (ops : List Op), p.content = .ok ops →
      extract_page_text_items doc p fc = .ok (runPageOps (pageCtxOf doc p fc) ops) := by
  refine ⟨extractPagesGo_isOk doc fc doc.pages, ?_⟩
  intro p ops h
  rw [extract_page_text_items, h]

/-- C1, witness: the amended theorem applied to the concrete document. -/
theorem C1_amended_witness :
    extract_page_text_items c1doc c1page1 fcEmpty =
      .ok (runPageOps (pageCtxOf c1doc c1page1 fcEmpty) c1ops) :=
  (C1_amended c1doc fcEmpty).2 c1page1 c1ops rfl

/-! ## Claim C2 -/

/-- C2, counterexample: form F1 (object 10, invoked by the page's `Do X1`)
draws `A` and then invokes nested form `X2` with a `Do` operator; form F2
(object 20) draws `NESTED`.  Interpreting the page yields only F1's item —
the nested `Do` inside the form is a no-op — although interpreting F2
standalone with the same machinery yields its item.  Nested forms are NOT
recursively interpreted, and there is no depth guard (none is needed: the
form interpreter has no `Do` arm at all). -/
theorem C2_counterexample :
    extract_page_text_items c2doc c2page fcEmpty =
      .ok [⟨"A".toList, 15, 27, 0, 12, "G0".toList, 12, 1, false, false, .text⟩] ∧
    extract_form_xobject_text c2doc 20 1 fcEmpty matId = [⟨"NESTED".toList, 1, 2, 0, 12, "H0".toList, 12,
      1, false, false, .text⟩] ∧
    c2form1.content = .ok [⟨"BT".toList, []⟩,
      ⟨"Tf".toList, [.name "G0".toList, .integer 12]⟩,
      ⟨"Td".toList, [.integer 5, .integer 7]⟩, ⟨"Tj".toList, [.string [0x41]]⟩,
      ⟨"ET".toList, []⟩, ⟨"Do".toList, [.name "X2".toList]⟩] :=
  ⟨by decide, by decide, rfl⟩

/-- C2 (amended): a page-level `Do` naming a Form XObject interprets the
form's stream with the parent CTM composed into each emitted item's position
and with the form's own resources for decoding (concretely: the form's
`Td (5,7)` composed with the page CTM translation (10,20) puts the item at
(15,27) = the product matrix's translation, and the form's font tables win
over the page's, which would have decoded the string as `PAGE`).  Inside a
form, however, every operator outside BT/ET/Tf/Td/TD/Tm/Tj/TJ — including
`Do` — is a no-op for every state, so nested forms are never interpreted:
recursion is bounded at depth one by omission and no explicit depth guard
exists. -/
theorem C2_amended :
    (∀ (ctx : FormCtx) (st : FState) (op : Op), op.operator = "Do".toList →
      formStep ctx st op = st) ∧
    extract_page_text_items c2docR c2pageR fcEmpty =
      .ok [⟨"A".toList, 15, 27, 0, 12, "G0".toList, 12, 1, false, false, .text⟩] ∧
    (multiply_matrices ⟨1, 0, 0, 1, 5, 7⟩ ⟨1, 0, 0, 1, 10, 20⟩).e = 15 ∧
    (multiply_matrices ⟨1, 0, 0, 1, 5, 7⟩ ⟨1, 0, 0, 1, 10, 20⟩).f = 27 := by
  refine ⟨?_, by decide, by decide, by decide⟩
  intro ctx st op h
  rcases op with ⟨oper, operands⟩
  simp only at h
  subst h
  rfl

/-- C2, witness: `formStep` on a concrete `Do` operator leaves a concrete
state unchanged. -/
theorem C2_amended_witness :
    formStep ⟨1, [], [], [], [], [], fcEmpty, matId⟩ ⟨[], 12, matId, false, []⟩
      ⟨"Do".toList, [.name "X2".toList]⟩ = ⟨[], 12, matId, false, []⟩ :=
  C2_amended.1 ⟨1, [], [], [], [], [], fcEmpty, matId⟩ ⟨[], 12, matId, false, []⟩
    ⟨"Do".toList, [.name "X2".toList]⟩ rfl

/-! ## Claim C9 -/

/-- C9, counterexample: `c9bad` has no char_map entry for CID 1 and its
first (and only) range (1, 5, 0xD800) contains CID 1, yet `lookup` returns
`none` rather than the range's mapping, because base + offset = 0xD800 is
not a valid Unicode scalar value and such ranges are skipped.  `lookup`
therefore does not return "the first stored range containing the CID" in
general. -/
theorem C9_counterexample :
    c9bad.lookup 1 = none ∧
    c9bad.ranges.find? (fun r => decide (r.1 ≤ 1) && decide (1 ≤ r.2.1)) =
      some (1, 5, 0xD800) ∧
    validChar ((0xD800 + (1 - 1)) % 2 ^ 32) = false :=
  ⟨by decide, by decide, by decide⟩

/-- C9 (amended): `lookup` returns the exact char_map entry when one
exists; otherwise it scans the stored ranges in order and returns the first
containing range whose base + offset (a u32 addition) is a valid Unicode
scalar value — containing ranges with invalid mapped values are skipped,
not returned.  The spec's decode example holds: the example CMap decodes
`00 24 00 25 00 03` to `"AB "`. -/
theorem C9_amended :
    (∀ (cm : ToUnicodeCMap) (cid : Nat) (s : Str),
      cm.char_map.lookup cid = some s → cm.lookup cid = some s) ∧
    (∀ (cid : Nat) (pre : List (Nat × Nat × Nat)) (r : Nat × Nat × Nat)
      (post : List (Nat × Nat × Nat)),
      (∀ r' ∈ pre, ¬(r'.1 ≤ cid ∧ cid ≤ r'.2.1) ∨
        validChar ((r'.2.2 + (cid - r'.1)) % 2 ^ 32) = false) →
      r.1 ≤ cid → cid ≤ r.2.1 → validChar ((r.2.2 + (cid - r.1)) % 2 ^ 32) = true →
      rangesLookup cid (pre ++ r :: post) =
        some [Char.ofNat ((r.2.2 + (cid - r.1)) % 2 ^ 32)]) ∧
    (∀ (cm : ToUnicodeCMap) (cid : Nat), cm.char_map.lookup cid = none →
      cm.lookup cid = rangesLookup cid cm.ranges) ∧
    c9cmap.decode_cids [0, 0x24, 0, 0x25, 0, 3] = "AB ".toList := by
  refine ⟨?_, ?_, ?_, by decide⟩
  · intro cm cid s h
    rw [ToUnicodeCMap.lookup, h]
  · intro cid pre r post
    induction pre with
    | nil =>
      intro hpre h1 h2 h3
      rcases r with ⟨s, e, b⟩
      simp only [List.nil_append, rangesLookup]
      rw [if_pos ⟨h1, h2⟩, if_pos h3]
    | cons p pre ih =>
      intro hpre h1 h2 h3
      have hmem := hpre p (List.mem_cons_self p pre)
      have htail := fun q hq => hpre q (List.mem_cons_of_mem p hq)
      rcases p with ⟨s, e, b⟩
      rcases hmem with hnc | hinv
      · simp only [List.cons_append, rangesLookup]
        rw [if_neg hnc]
        exact ih htail h1 h2 h3
      · simp only [List.cons_append, rangesLookup]
        by_cases hc : s ≤ cid ∧ cid ≤ e
        · have hinv2 : validChar ((b + (cid - s)) % 2 ^ 32) = false := hinv
          rw [if_pos hc, if_neg (by simpa using hinv2)]
          exact ih htail h1 h2 h3
        · rw [if_neg hc]
          exact ih htail h1 h2 h3
  · intro cm cid h
    rw [ToUnicodeCMap.lookup, h]

/-- C9, witness: the range-scan part of the amended theorem applied to a
concrete range list whose first containing range maps into the surrogate
block (so it is skipped) while the second containing range wins. -/
theorem C9_amended_witness :
    rangesLookup 3 ([(1, 5, 0xD800)] ++ (2, 8, 65) :: []) = some [Char.ofNat 66] :=
  C9_amended.2.1 3 [(1, 5, 0xD800)] (2, 8, 65) [] (by decide) (by decide)
    (by decide) (by decide)

/-! ## Claim C6 -/

/-- C6: on the 4-column × 4-row grid with column-aligned X positions and
numeric data rows (`gridItems`, at body size 10), `detect_tables` (with the
insertion-order HashMap iteration) returns exactly one `Table` with 4
columns and 4 rows; on the same number of items arranged as wrapped
single-column prose (`proseItems`) it returns zero tables. -/
theorem C6 :
    (detect_tables hmOrdId.ordCounts gridItems 10).map
      (fun t => (t.columns.length, t.rows.length)) = [(4, 4)] ∧
    detect_tables hmOrdId.ordCounts proseItems 10 = [] :=
  ⟨by decide, by decide⟩

/-! ## Claim C5 -/

theorem maxByKeyLast_mem {α : Type} :
    ∀ (l : List (α × Nat)) (e : α × Nat), maxByKeyLast l = some e → e ∈ l := by
  intro l
  induction l with
  | nil => intro e h; simp [maxByKeyLast] at h
  | cons a es ih =>
    intro e h
    rw [maxByKeyLast] at h
    rcases hs : maxByKeyLast es with _ | b
    · rw [hs] at h
      simp only [Option.elim] at h
      rcases Option.some.inj h with rfl
      exact List.mem_cons_self _ _
    · rw [hs] at h
      simp only [Option.elim] at h
      split at h
      · rcases Option.some.inj h with rfl
        exact List.mem_cons_self _ _
      · rcases Option.some.inj h with rfl
        exact List.mem_cons_of_mem _ (ih _ hs)

theorem maxByKeyLast_unique {α : Type} :
    ∀ (m : List (α × Nat)) (e : α × Nat), e ∈ m → (∀ x ∈ m, x.2 ≤ e.2) →
    (∀ x ∈ m, x.2 = e.2 → x = e) → maxByKeyLast m = some e := by
  intro m
  induction m with
  | nil => intro e he; simp at he
  | cons a es ih =>
    intro e he hmax huni
    by_cases hees : e ∈ es
    · have hr := ih e hees (fun x hx => hmax x (List.mem_cons_of_mem a hx))
        (fun x hx h2 => huni x (List.mem_cons_of_mem a hx) h2)
      rw [maxByKeyLast, hr]
      simp only [Option.elim]
      rw [if_neg (by simpa using hmax a (List.mem_cons_self a es))]
    · have hea : e = a := by
        rcases List.mem_cons.mp he with h | h
        · exact h
        · exact absurd h hees
      rcases hs : maxByKeyLast es with _ | b
      · rw [maxByKeyLast, hs]
        simp only [Option.elim]
        rw [hea]
      · have hbes := maxByKeyLast_mem es b hs
        have hble : b.2 ≤ e.2 := hmax b (List.mem_cons_of_mem a hbes)
        have hbne : b.2 ≠ e.2 := fun h2 =>
          hees (huni b (List.mem_cons_of_mem a hbes) h2 ▸ hbes)
        have hblt : b.2 < e.2 := lt_of_le_of_ne hble hbne
        rw [maxByKeyLast, hs]
        simp only [Option.elim]
        rw [if_pos (by rw [hea] at hblt; exact hblt), hea]

/-- C5, counterexample: the two-item page `c5Items` (one 15pt title line, one
10pt body line) yields DIFFERENT Markdown under two legitimate HashMap
iteration orders of the font-size histogram — insertion order picks body
size 10 (title becomes a heading), reversed order picks 15 (no heading) —
although the input items and options are identical.  The emitter is only
deterministic per iteration order; Rust's `HashMap` does not fix one. -/
theorem C5_counterexample :
    to_markdown_from_items hmOrdRev c5Items MarkdownOptions.default ≠
      to_markdown_from_items hmOrdId c5Items MarkdownOptions.default ∧
    (hmOrdRev.ordSizes [((150 : Int), 1), ((100 : Int), 1)]).Perm
      [((150 : Int), 1), ((100 : Int), 1)] :=
  ⟨by decide, by decide⟩

/-- C5 (amended): the emitter is a pure function of the items, the options
and the HashMap iteration orders: whenever two iteration orders agree on
`max_by_key` over every histogram (in particular whenever each histogram has
a unique maximal count — the first conjunct: `max_by_key` is
permutation-invariant on unique-max entry lists), the output strings are
byte-identical.  Re-running with the SAME iteration order is always
byte-identical (apply with σ1 = σ2); across runs the order may differ and
the counterexample shows the output then differs on tied histograms. -/
theorem C5_amended :
    (∀ (l la : List (Int × Nat)), la.Perm l → uniqueMaxEntry l →
      maxByKeyLast la = maxByKeyLast l) ∧
    ∀ (σ1 σ2 : HmOrd) (items : List TextItem) (opts : MarkdownOptions),
      (∀ l, maxByKeyLast (σ1.ordSizes l) = maxByKeyLast (σ2.ordSizes l)) →
      (∀ l, maxByKeyLast (σ1.ordCounts l) = maxByKeyLast (σ2.ordCounts l)) →
      to_markdown_from_items σ1 items opts = to_markdown_from_items σ2 items opts := by
  constructor
  · intro l la hp hu
    obtain ⟨e, hel, hmax, huni⟩ := hu
    rw [maxByKeyLast_unique l e hel hmax huni,
        maxByKeyLast_unique la e (hp.mem_iff.mpr hel)
          (fun x hx => hmax x (hp.mem_iff.mp hx))
          (fun x hx h2 => huni x (hp.mem_iff.mp hx) h2)]
  · intro σ1 σ2 items opts H1 H2
    have e1 : calculate_font_stats_from_items σ1 = calculate_font_stats_from_items σ2 :=
      funext fun its => by simp only [calculate_font_stats_from_items, H1]
    have e2 : calculate_font_stats σ1 = calculate_font_stats σ2 :=
      funext fun lns => by simp only [calculate_font_stats, H1]
    have e3 : has_consistent_columns σ1.ordCounts = has_consistent_columns σ2.ordCounts :=
      funext fun cells => by simp only [has_consistent_columns, H2]
    have e4 : detect_table_in_region σ1.ordCounts = detect_table_in_region σ2.ordCounts :=
      funext fun its => funext fun mode => by simp only [detect_table_in_region, e3]
    have e5 : detect_tables σ1.ordCounts = detect_tables σ2.ordCounts :=
      funext fun its => funext fun base => by simp only [detect_tables, e4]
    have e6 : to_markdown_from_lines_with_tables_and_images σ1 =
        to_markdown_from_lines_with_tables_and_images σ2 :=
      funext fun lns => funext fun os => funext fun pt => funext fun pi => by
        simp only [to_markdown_from_lines_with_tables_and_images, e2]
    simp only [to_markdown_from_items, e1, e5, e6]

/-- C5, witness: the congruence applied with both orders the insertion
order, on the concrete `c8Items` page — a same-order re-run is
byte-identical. -/
theorem C5_amended_witness :
    to_markdown_from_items hmOrdId c8Items MarkdownOptions.default =
      to_markdown_from_items hmOrdId c8Items MarkdownOptions.default :=
  C5_amended.2 hmOrdId hmOrdId c8Items MarkdownOptions.default
    (fun _ => rfl) (fun _ => rfl)

/-! ## Claim C3 -/

theorem exists_orElse {α : Type} (a : Option α) {b : Option α}
    (h : ∃ s, b = some s) : ∃ s, (a <|> b) = some s := by
  rcases h with ⟨s, rfl⟩
  cases a with
  | none => exact ⟨s, rfl⟩
  | some y => exact ⟨y, rfl⟩

/-- C3, counterexample: a font whose built-in encoding decodes the byte
0x41 "successfully" to the EMPTY string (`Document::decode_text` returned
`Ok` with no text).  The ladder returns `Some("")` from the built-in
strategy instead of falling through, although Latin-1 — claimed to win as
"the first strategy producing a non-empty result" — would give `"A"`.  The
built-in strategy wins on success, not on non-emptiness. -/
theorem C3_counterexample :
    extract_text_from_operand (.string [0x41]) c3fonts "F0".toList fcEmpty [] [] [] =
      some [] ∧
    latin1Decode [0x41] = "A".toList ∧
    ([] : Str) ≠ "A".toList :=
  ⟨by decide, by decide, by decide⟩

/-- C3 (amended): decoding a String operand always succeeds (the Latin-1
fallback is total); the strategies run in the claimed order; strategies
keyed on CMaps and `/Differences` (1–5) win only on a non-empty decode —
but the built-in-encoding strategy (6) returns whatever `decode_text`
produced on success, the empty string included.  The conjuncts: totality;
strategy 1 wins on a non-empty decode whatever follows; the built-in
strategy's result — empty or not — is returned when strategies 1–5 are
unavailable; when every strategy is unavailable and no UTF-16 BOM is
present, the result is byte-wise Latin-1. -/
theorem C3_amended :
    (∀ (bytes : List Nat) (fonts : List (Str × FontDict)) (cf : Str) (fc : FontCMaps)
      (fbn : List (Str × Str)) (ftr : List (Str × Nat)) (fe : PageFontEncodings),
      ∃ s, extract_text_from_operand (.string bytes) fonts cf fc fbn ftr fe = some s) ∧
    (∀ (bytes : List Nat) (fonts : List (Str × FontDict)) (cf : Str) (fc : FontCMaps)
      (fbn : List (Str × Str)) (ftr : List (Str × Nat)) (fe : PageFontEncodings)
      (n : Nat) (cm : ToUnicodeCMap),
      ftr.lookup cf = some n → fc.get_by_obj n = some cm →
      (cm.decode_cids bytes).isEmpty = false →
      extract_text_from_operand (.string bytes) fonts cf fc fbn ftr fe =
        some (cm.decode_cids bytes)) ∧
    (∀ (bytes : List Nat) (fonts : List (Str × FontDict)) (cf : Str) (fc : FontCMaps)
      (fbn : List (Str × Str)) (ftr : List (Str × Nat)) (fe : PageFontEncodings)
      (fd : FontDict) (dec : List Nat → Option Str) (s : Str),
      ftr.lookup cf = none → fbn.lookup cf = none → fc.get cf = none →
      fe.lookup cf = none → fonts.lookup cf = some fd → fd.builtin_decode = some dec →
      dec bytes = some s →
      extract_text_from_operand (.string bytes) fonts cf fc fbn ftr fe = some s) ∧
    (∀ (bytes : List Nat) (fonts : List (Str × FontDict)) (cf : Str) (fc : FontCMaps)
      (fbn : List (Str × Str)) (ftr : List (Str × Nat)) (fe : PageFontEncodings),
      ftr.lookup cf = none → fbn.lookup cf = none → fc.get cf = none →
      fe.lookup cf = none → fonts.lookup cf = none → bytes.take 2 ≠ [0xFE, 0xFF] →
      extract_text_from_operand (.string bytes) fonts cf fc fbn ftr fe =
        some (latin1Decode bytes)) := by
  refine ⟨?_, ?_, ?_, ?_⟩
  · intro bytes fonts cf fc fbn ftr fe
    exact exists_orElse _ (exists_orElse _ (exists_orElse _ (exists_orElse _
      (exists_orElse _ (exists_orElse _ (exists_orElse _ ⟨latin1Decode bytes, rfl⟩))))))
  · intro bytes fonts cf fc fbn ftr fe n cm h1 h2 h3
    have hne : cm.decode_cids bytes ≠ [] := fun h => by simp [h] at h3
    simp [extract_text_from_operand, h1, h2, hne]
  · intro bytes fonts cf fc fbn ftr fe fd dec s h1 h2 h3 h4 h5 h6 h7
    simp [extract_text_from_operand, h1, h2, h3, h4, h5, h6, h7]
  · intro bytes fonts cf fc fbn ftr fe h1 h2 h3 h4 h5 hBOM
    simp only [extract_text_from_operand, h1, h2, h3, h4, h5, Option.bind_eq_bind,
      Option.none_bind, Option.none_orElse]
    split
    · exact absurd rfl (by assumption)
    · simp

/-- C3, witness: the built-in-encoding conjunct of the amended theorem
applied to the concrete font table whose built-in decode returns the empty
string. -/
theorem C3_amended_witness :
    extract_text_from_operand (.string [0x42]) c3fonts "F0".toList fcEmpty [] [] [] =
      some [] :=
  C3_amended.2.2.1 [0x42] c3fonts "F0".toList fcEmpty [] [] []
    ⟨none, none, some fun _ => some []⟩ (fun _ => some []) [] rfl rfl rfl rfl rfl rfl rfl

/-! ## Claim C7 -/

theorem Q.not_lt_q (a b : Q) (h : b ≤ a) : ¬(a < b) := by
  rw [Q.le_iff] at h
  rw [Q.lt_iff]
  exact not_lt_of_le h

theorem Q.toRat_half : (0.5 : Q).toRat = 1 / 2 := by
  show ((0.5 : Q).num : ℚ) / ((0.5 : Q).den : ℚ) = 1 / 2
  rw [show (0.5 : Q).num = 1 from rfl, show (0.5 : Q).den = 2 from rfl]
  norm_num

theorem Q.abs_sub_self_lt (t : Q) : Q.abs (t - t) < 0.5 := by
  rw [Q.lt_iff, Q.toRat_abs, Q.toRat_sub, Q.toRat_half]
  simp

theorem Q.abs_sub_lt_comm (a b c : Q) :
    Q.abs (a - b) < c ↔ Q.abs (b - a) < c := by
  rw [Q.lt_iff, Q.lt_iff, Q.toRat_abs, Q.toRat_abs, Q.toRat_sub, Q.toRat_sub,
    abs_sub_comm]

theorem tierMatch_at :
    ∀ (pre : List Q) (idx : Nat) (t : Q) (post : List Q),
    (∀ p ∈ pre, ¬(Q.abs (t - p) < 0.5)) →
    tierMatch t idx (pre ++ t :: post) = some (idx + pre.length + 1) := by
  intro pre
  induction pre with
  | nil =>
    intro idx t post _
    simp only [List.nil_append, tierMatch]
    rw [if_pos (Q.abs_sub_self_lt t)]
    simp
  | cons p pre ih =>
    intro idx t post hpre
    have hstep : tierMatch t idx ((p :: pre) ++ t :: post) =
        if Q.abs (t - p) < 0.5 then some (idx + 1)
        else tierMatch t (idx + 1) (pre ++ t :: post) := rfl
    rw [hstep, if_neg (hpre p (List.mem_cons_self p pre)),
      ih (idx + 1) t post fun q hq => hpre q (List.mem_cons_of_mem p hq)]
    congr 1
    simp only [List.length_cons]
    omega

theorem cluster_step (acc : List Q) (s : Q) :
    (fun tiers size =>
      let already_in_tier := tiers.any fun t => decide (Q.abs (t - size) < 0.5)
      if already_in_tier then tiers else tiers ++ [size]) acc s =
    if (acc.any fun t => decide (Q.abs (t - s) < 0.5)) = true then acc
    else acc ++ [s] := rfl

theorem cluster_fold_props (P : Q → Prop) :
    ∀ (inp acc : List Q),
    inp.Pairwise (fun a b => b ≤ a) →
    acc.Pairwise (fun a b : Q => b ≤ a ∧ ¬(Q.abs (a - b) < 0.5)) →
    (∀ t ∈ acc, ∀ s ∈ inp, s ≤ t) →
    (∀ t ∈ acc, P t) → (∀ s ∈ inp, P s) →
    ((inp.foldl (fun tiers size =>
        let already_in_tier := tiers.any fun t => decide (Q.abs (t - size) < 0.5)
        if already_in_tier then tiers else tiers ++ [size]) acc).Pairwise
      (fun a b : Q => b ≤ a ∧ ¬(Q.abs (a - b) < 0.5)) ∧
     ∀ t ∈ inp.foldl (fun tiers size =>
        let already_in_tier := tiers.any fun t => decide (Q.abs (t - size) < 0.5)
        if already_in_tier then tiers else tiers ++ [size]) acc, P t) := by
  intro inp
  induction inp with
  | nil => exact fun acc _ hacc _ hP _ => ⟨hacc, hP⟩
  | cons s inp ih =>
    intro acc hinp hacc hge hP hPin
    rcases List.pairwise_cons.mp hinp with ⟨hs_ge, hinp2⟩
    simp only [List.foldl_cons, cluster_step]
    by_cases hany : (acc.any fun t => decide (Q.abs (t - s) < 0.5)) = true
    · rw [if_pos hany]
      exact ih acc hinp2 hacc
        (fun t ht s2 hs2 => hge t ht s2 (List.mem_cons_of_mem s hs2))
        hP (fun s2 hs2 => hPin s2 (List.mem_cons_of_mem s hs2))
    · rw [if_neg hany]
      have hnone : ∀ t ∈ acc, ¬(Q.abs (t - s) < 0.5) := by
        rw [Bool.not_eq_true, List.any_eq_false] at hany
        intro t ht
        have := hany t ht
        simpa using this
      refine ih (acc ++ [s]) hinp2 ?_ ?_ ?_
        (fun s2 hs2 => hPin s2 (List.mem_cons_of_mem s hs2))
      · refine List.pairwise_append.mpr ⟨hacc, List.pairwise_singleton _ s, ?_⟩
        intro a ha b hb
        rcases List.mem_singleton.mp hb with rfl
        exact ⟨hge a ha b (List.mem_cons_self b inp), hnone a ha⟩
      · intro t ht s2 hs2
        rcases List.mem_append.mp ht with h1 | h2
        · exact hge t h1 s2 (List.mem_cons_of_mem s hs2)
        · rcases List.mem_singleton.mp h2 with rfl
          exact hs_ge s2 hs2
      · intro t ht
        rcases List.mem_append.mp ht with h1 | h2
        · exact hP t h1
        · rcases List.mem_singleton.mp h2 with rfl
          exact hPin t (List.mem_cons_self t inp)

theorem compute_heading_tiers_props (lines : List TextLine) (base : Q) :
    (compute_heading_tiers lines base).length ≤ 4 ∧
    (compute_heading_tiers lines base).Pairwise
      (fun a b : Q => b ≤ a ∧ ¬(Q.abs (a - b) < 0.5)) ∧
    ∀ t ∈ compute_heading_tiers lines base, (1.2 : Q) ≤ t / base ∧
      ∃ l ∈ lines, (l.items.head?.map TextItem.font_size) = some t := by
  have hdef : compute_heading_tiers lines base =
      ((sortByStable (fun a b => b ≤ a) (lines.filterMap fun line =>
      match line.items.head? with
      | some first =>
        if (1.2 : Q) ≤ first.font_size / base then some first.font_size else none
      | none => none)).foldl (fun tiers size =>
        let already_in_tier := tiers.any fun t => decide (Q.abs (t - size) < 0.5)
        if already_in_tier then tiers else tiers ++ [size]) []).take 4 := rfl
  have hsorted : (sortByStable (fun a b => b ≤ a) (lines.filterMap fun line =>
      match line.items.head? with
      | some first =>
        if (1.2 : Q) ≤ first.font_size / base then some first.font_size else none
      | none => none)).Pairwise
      (fun a b : Q => b ≤ a) :=
    pairwise_sortByStable (fun a b : Q => decide (b ≤ a)) (fun a b : Q => b ≤ a)
      (fun a b h => of_decide_eq_true h)
      (fun a b h => Q.le_of_not_le_q _ _ (of_decide_eq_false h))
      (fun a b c h1 h2 => Q.le_trans_q _ _ _ h2 h1) _
  have hPin : ∀ s ∈ sortByStable (fun a b => b ≤ a) (lines.filterMap fun line =>
      match line.items.head? with
      | some first =>
        if (1.2 : Q) ≤ first.font_size / base then some first.font_size else none
      | none => none),
      (1.2 : Q) ≤ s / base ∧
        ∃ l ∈ lines, (l.items.head?.map TextItem.font_size) = some s := by
    intro s hs
    have hs2 := (mem_sortByStable _ _ _).mp hs
    rcases List.mem_filterMap.mp hs2 with ⟨line, hl, heq⟩
    split at heq
    · rename_i first hh
      split at heq
      · rename_i hc
        rcases Option.some.inj heq with rfl
        exact ⟨hc, ⟨line, hl, by rw [hh]; rfl⟩⟩
      · cases heq
    · cases heq
  have hfold := cluster_fold_props
    (fun s => (1.2 : Q) ≤ s / base ∧
      ∃ l ∈ lines, (l.items.head?.map TextItem.font_size) = some s)
    (sortByStable (fun a b => b ≤ a) (lines.filterMap fun line =>
      match line.items.head? with
      | some first =>
        if (1.2 : Q) ≤ first.font_size / base then some first.font_size else none
      | none => none)) [] hsorted (by simp) (by simp) (by simp)
    hPin
  rw [hdef]
  refine ⟨?_, ?_, ?_⟩
  · calc (((sortByStable (fun a b => b ≤ a) (lines.filterMap fun line =>
      match line.items.head? with
      | some first =>
        if (1.2 : Q) ≤ first.font_size / base then some first.font_size else none
      | none => none)).foldl (fun tiers size =>
        let already_in_tier := tiers.any fun t => decide (Q.abs (t - size) < 0.5)
        if already_in_tier then tiers else tiers ++ [size]) []).take 4).length
        = min 4 ((sortByStable (fun a b => b ≤ a) (lines.filterMap fun line =>
      match line.items.head? with
      | some first =>
        if (1.2 : Q) ≤ first.font_size / base then some first.font_size else none
      | none => none)).foldl (fun tiers size =>
        let already_in_tier := tiers.any fun t => decide (Q.abs (t - size) < 0.5)
        if already_in_tier then tiers else tiers ++ [size]) []).length :=
          List.length_take _ _
      _ ≤ 4 := min_le_left _ _
  · exact hfold.1.sublist (List.take_sublist _ _)
  · intro t ht
    exact hfold.2 t (List.take_subset _ _ ht)

theorem detect_header_level_at_tier (lines : List TextLine) (base : Q)
    (i : Nat) (h : i < (compute_heading_tiers lines base).length) :
    detect_header_level ((compute_heading_tiers lines base).get ⟨i, h⟩) base
      (compute_heading_tiers lines base) = some (i + 1) := by
  obtain ⟨hlen, hpw, hmem⟩ := compute_heading_tiers_props lines base
  have htmem : (compute_heading_tiers lines base).get ⟨i, h⟩ ∈
      compute_heading_tiers lines base := (compute_heading_tiers lines base).get_mem i h
  have hratio := (hmem _ htmem).1
  have hne : ¬((compute_heading_tiers lines base).isEmpty = true) := by
    intro habs
    rw [List.isEmpty_iff] at habs
    rw [habs] at h
    simp at h
  have hdecomp : compute_heading_tiers lines base =
      (compute_heading_tiers lines base).take i ++
        (compute_heading_tiers lines base).get ⟨i, h⟩ ::
        (compute_heading_tiers lines base).drop (i + 1) := by
    conv_lhs => rw [← List.take_append_drop i (compute_heading_tiers lines base)]
    rw [List.drop_eq_get_cons h]
  have hpre : ∀ p ∈ (compute_heading_tiers lines base).take i,
      ¬(Q.abs ((compute_heading_tiers lines base).get ⟨i, h⟩ - p) < 0.5) := by
    intro p hp
    have hcross := (List.pairwise_append.mp (hdecomp ▸ hpw)).2.2
    have h2 := hcross p hp _ (List.mem_cons_self _ _)
    rw [Q.abs_sub_lt_comm]
    exact h2.2
  have hmatch : tierMatch ((compute_heading_tiers lines base).get ⟨i, h⟩) 0
      (compute_heading_tiers lines base) = some (i + 1) := by
    have e := congrArg
      (tierMatch ((compute_heading_tiers lines base).get ⟨i, h⟩) 0) hdecomp
    rw [e, tierMatch_at _ 0 _ _ hpre]
    congr 1
    rw [List.length_take]
    omega
  rw [detect_header_level]
  rw [if_neg (Q.not_lt_q _ _ hratio), if_pos hne, hmatch]

/-- C7: heading tiers, in general and concretely.  For every line list and
base size, the tier list has at most 4 entries, is sorted descending with
pairwise gaps of at least 0.5pt (no two tiers cluster), every tier is a
first-item font size of some line with size/base ≥ 1.2, and the tier at
index i classifies (via `detect_header_level`) as heading level i + 1.
Concretely, the 24/18/15/12 line set yields tiers [24, 18, 15]; with body
12 the sizes 24/18/15/12 classify as H1/H2/H3/none, and with the single
tier [15], size 15 is H1 while 14 is no heading. -/
theorem C7 :
    (∀ (lines : List TextLine) (base : Q),
      (compute_heading_tiers lines base).length ≤ 4 ∧
      (compute_heading_tiers lines base).Pairwise
        (fun a b : Q => b ≤ a ∧ ¬(Q.abs (a - b) < 0.5)) ∧
      (∀ t ∈ compute_heading_tiers lines base, (1.2 : Q) ≤ t / base ∧
        ∃ l ∈ lines, (l.items.head?.map TextItem.font_size) = some t) ∧
      ∀ (i : Nat) (h : i < (compute_heading_tiers lines base).length),
        detect_header_level ((compute_heading_tiers lines base).get ⟨i, h⟩) base
          (compute_heading_tiers lines base) = some (i + 1)) ∧
    compute_heading_tiers c7Lines 12 = [24, 18, 15] ∧
    detect_header_level 24 12 [24, 18, 15] = some 1 ∧
    detect_header_level 18 12 [24, 18, 15] = some 2 ∧
    detect_header_level 15 12 [24, 18, 15] = some 3 ∧
    detect_header_level 12 12 [24, 18, 15] = none ∧
    detect_header_level 15 12 [15] = some 1 ∧
    detect_header_level 14 12 [15] = none := by
  refine ⟨?_, by decide, by decide, by decide, by decide, by decide, by decide,
    by decide⟩
  intro lines base
  obtain ⟨h1, h2, h3⟩ := compute_heading_tiers_props lines base
  exact ⟨h1, h2, h3, detect_header_level_at_tier lines base⟩

/-- C7, witness: the index-to-level conjunct applied to the concrete line
set at tier index 1. -/
theorem C7_witness :
    detect_header_level ((compute_heading_tiers c7Lines 12).get ⟨1, by decide⟩) 12
      (compute_heading_tiers c7Lines 12) = some 2 :=
  (C7.1 c7Lines 12).2.2.2 1 (by decide)

/-! ## Claim C8 -/

theorem insertAboveLine_nil (page : Nat) (y : Q) (out : Str) (inp : Bool)
    (ins : List (Nat × Nat)) :
    insertAboveLine page [] y out inp ins = (out, inp, ins) := rfl

/-- C8, counterexample: the page `c8Items` opens with the two-word,
list-like line `1. Introduction` at 20pt over 10pt body text.  The full
pipeline emits it as the heading `# 1. Introduction` although it has fewer
than 4 words and is a list item — the 4-word lower bound does not exist
(the code only requires byte length > 3), and the heading branch precedes
the list branch, so list lines are not excluded. -/
theorem C8_counterexample :
    to_markdown_from_items hmOrdId c8Items MarkdownOptions.default =
      ("# 1. Introduction\n\n" ++
        "body one two three more body text here and final body line\n").toList ∧
    is_list_item "1. Introduction".toList = true ∧
    (splitWs (strTrim "1. Introduction".toList)).length = 2 :=
  ⟨by decide, by decide, by decide⟩

/-- C8 (amended): in the emission loop, for a line on the current page with
no pending tables or images, outside any paragraph or list, with non-blank
text that is not a caption: (i) if header detection is on, the trimmed
plain text is longer than 3 BYTES (not: at least 4 words), has at most 15
words, and the first item's size resolves to a heading level, the line is
emitted as a Markdown heading — with no exclusion of list-like lines, since
the heading branch precedes the list branch; (ii) if the byte-length/word
bounds fail, the line is not emitted as a heading (here: it lands in the
paragraph branch when it is also not a list item and not monospace). -/
theorem C8_amended :
    ∀ (options : MarkdownOptions) (base_size : Q) (heading_tiers : List Q)
      (para_threshold : Q) (page_tables page_images : PageMd) (st : EmitState)
      (line : TextLine),
      line.page = st.current_page →
      page_tables.lookup st.current_page = none →
      page_images.lookup st.current_page = none →
      st.in_paragraph = false → st.in_list = false →
      (strTrim (line.text_with_formatting options.detect_bold
        options.detect_italic)).isEmpty = false →
      is_caption_line (strTrim line.text) = false →
      (∀ (level : Nat), options.detect_headers = true →
        3 < strLen (strTrim line.text) →
        (splitWs (strTrim line.text)).length ≤ 15 →
        detect_header_level ((line.items.head?.map (·.font_size)).getD base_size)
          base_size heading_tiers = some level →
        emitLine options base_size heading_tiers para_threshold page_tables
          page_images st line =
        { st with
          output := st.output ++ List.replicate level '#' ++ [' '] ++
            strTrim line.text ++ "\n\n".toList,
          prev_y := line.y, in_paragraph := false, in_list := false }) ∧
      (¬(3 < strLen (strTrim line.text) ∧
          (splitWs (strTrim line.text)).length ≤ 15) →
        is_list_item (strTrim line.text) = false →
        (line.items.any fun it => is_monospace_font it.font) = false →
        emitLine options base_size heading_tiers para_threshold page_tables
          page_images st line =
        { st with
          output := st.output ++ strTrim (line.text_with_formatting
            options.detect_bold options.detect_italic),
          prev_y := line.y, in_paragraph := true }) := by
  intro options base_size heading_tiers para_threshold page_tables page_images st line
    hpage htab himg hnp hnl hne hcap
  constructor
  · intro level hhd hlen hwords hlvl
    simp only [emitLine, hpage, htab, himg, hnp, hnl, hne, hcap, hhd, hlen, hwords,
      hlvl, ne_eq, not_true_eq_false, if_false, Option.getD_none, insertAboveLine_nil,
      Bool.false_eq_true, and_false, false_and, and_true, true_and, if_true,
      eq_self_iff_true]
  · intro hfail hlist hmono
    have hcond : ¬(options.detect_headers ∧ 3 < strLen (strTrim line.text) ∧
        (splitWs (strTrim line.text)).length ≤ 15) := fun h => hfail h.2
    simp only [emitLine, hpage, htab, himg, hnp, hnl, hne, hcap, hcond, hlist, hmono,
      ne_eq, not_true_eq_false, if_false, Option.getD_none, insertAboveLine_nil,
      Bool.false_eq_true, and_false, false_and, and_true, true_and, if_true,
      eq_self_iff_true]

/-- C8, witness: the heading conjunct of the amended theorem applied to a
concrete two-word list-like 20pt line over a fresh emitter state. -/
theorem C8_amended_witness :
    emitLine MarkdownOptions.default 10 [20] 5 [] []
      ⟨[], 1, f32Max, false, false, none, [], []⟩
      ⟨[mkTI "1. Introduction" 100 700 20 1], 700, 1⟩ =
    { (⟨[], 1, f32Max, false, false, none, [], []⟩ : EmitState) with
      output := ([] : Str) ++ List.replicate 1 '#' ++ [' '] ++
        strTrim (TextLine.text ⟨[mkTI "1. Introduction" 100 700 20 1], 700, 1⟩) ++
        "\n\n".toList,
      prev_y := 700, in_paragraph := false, in_list := false } :=
  (C8_amended MarkdownOptions.default 10 [20] 5 [] []
    ⟨[], 1, f32Max, false, false, none, [], []⟩
    ⟨[mkTI "1. Introduction" 100 700 20 1], 700, 1⟩
    rfl rfl rfl rfl rfl (by decide) (by decide)).1 1 rfl (by decide) (by decide)
    (by decide)
